import Mathlib

/-!
# Verification of the xDIMScreen locator core

A shallow embedding of the tagged-object locator of the xDIMScreen-locator
repository, together with theorems settling the frozen claims about it.

Conventions of the embedding:

* Machine floating-point numbers (`f64`) are embedded as real numbers `ℝ`;
  exact real arithmetic stands in for IEEE arithmetic.
* `SystemTime` instants are embedded as integers (nanoseconds since an
  arbitrary epoch); `Duration` values are integer nanosecond counts.
  `SystemTime::duration_since` fails exactly when the argument is later
  than the receiver, which the embedding mirrors.
* `nalgebra` rotations (`Rotation3`, `UnitQuaternion`) are always built in
  this program from scaled-axis (rotation-vector) data; a rotation is
  embedded either as its scaled-axis vector (where the code reads
  `angle()`/`scaled_axis()` back, assuming the represented angle is at
  most `π` so the round-trip is the identity) or as its 3×3 matrix
  obtained through the Rodrigues formula (where only the group action is
  used).
* `HashMap`s are embedded as association lists (iteration order of a
  `HashMap` is some list order; the list is that order), `BTreeMap`s keyed
  by `usize` as key-sorted association lists.
* The external OpenCV PnP solver (`calib3d::solve_pnp`) is a black box; the
  locator functions are parameterized by a solver oracle receiving exactly
  the data the code passes (object points, image points, camera matrix,
  distortion, rotation/translation guess, `useExtrinsicGuess` flag and
  method).  `Mat::default()` placeholders for the guess are embedded as
  zero vectors.
-/

namespace XDim

/-! ## Small linear-algebra kernel (`nalgebra` values used by the code) -/

/-- A 3-vector of `f64`, embedded over `ℝ`. -/
structure Vec3 where
  x : ℝ
  y : ℝ
  z : ℝ

namespace Vec3

def zero : Vec3 := ⟨0, 0, 0⟩

def add (a b : Vec3) : Vec3 := ⟨a.x + b.x, a.y + b.y, a.z + b.z⟩

def neg (a : Vec3) : Vec3 := ⟨-a.x, -a.y, -a.z⟩

def smul (c : ℝ) (a : Vec3) : Vec3 := ⟨c * a.x, c * a.y, c * a.z⟩

/-- Cross product, matching `nalgebra`'s `cross`. -/
def cross (a b : Vec3) : Vec3 :=
  ⟨a.y * b.z - a.z * b.y, a.z * b.x - a.x * b.z, a.x * b.y - a.y * b.x⟩

end Vec3

/-- A 3×3 matrix of `f64`, embedded over `ℝ`, with explicit entries
`mIJ` = row `I`, column `J`. -/
structure Mat3 where
  m00 : ℝ
  m01 : ℝ
  m02 : ℝ
  m10 : ℝ
  m11 : ℝ
  m12 : ℝ
  m20 : ℝ
  m21 : ℝ
  m22 : ℝ

namespace Mat3

def id : Mat3 := ⟨1, 0, 0, 0, 1, 0, 0, 0, 1⟩

def add (a b : Mat3) : Mat3 :=
  ⟨a.m00 + b.m00, a.m01 + b.m01, a.m02 + b.m02,
   a.m10 + b.m10, a.m11 + b.m11, a.m12 + b.m12,
   a.m20 + b.m20, a.m21 + b.m21, a.m22 + b.m22⟩

def sub (a b : Mat3) : Mat3 :=
  ⟨a.m00 - b.m00, a.m01 - b.m01, a.m02 - b.m02,
   a.m10 - b.m10, a.m11 - b.m11, a.m12 - b.m12,
   a.m20 - b.m20, a.m21 - b.m21, a.m22 - b.m22⟩

def smul (c : ℝ) (a : Mat3) : Mat3 :=
  ⟨c * a.m00, c * a.m01, c * a.m02,
   c * a.m10, c * a.m11, c * a.m12,
   c * a.m20, c * a.m21, c * a.m22⟩

def mul (a b : Mat3) : Mat3 :=
  ⟨a.m00 * b.m00 + a.m01 * b.m10 + a.m02 * b.m20,
   a.m00 * b.m01 + a.m01 * b.m11 + a.m02 * b.m21,
   a.m00 * b.m02 + a.m01 * b.m12 + a.m02 * b.m22,
   a.m10 * b.m00 + a.m11 * b.m10 + a.m12 * b.m20,
   a.m10 * b.m01 + a.m11 * b.m11 + a.m12 * b.m21,
   a.m10 * b.m02 + a.m11 * b.m12 + a.m12 * b.m22,
   a.m20 * b.m00 + a.m21 * b.m10 + a.m22 * b.m20,
   a.m20 * b.m01 + a.m21 * b.m11 + a.m22 * b.m21,
   a.m20 * b.m02 + a.m21 * b.m12 + a.m22 * b.m22⟩

def mulVec (a : Mat3) (v : Vec3) : Vec3 :=
  ⟨a.m00 * v.x + a.m01 * v.y + a.m02 * v.z,
   a.m10 * v.x + a.m11 * v.y + a.m12 * v.z,
   a.m20 * v.x + a.m21 * v.y + a.m22 * v.z⟩

def transpose (a : Mat3) : Mat3 :=
  ⟨a.m00, a.m10, a.m20, a.m01, a.m11, a.m21, a.m02, a.m12, a.m22⟩

end Mat3

/-- A 2×3 matrix of `f64` (the perspective-division and Jacobian blocks). -/
structure Mat2x3 where
  a00 : ℝ
  a01 : ℝ
  a02 : ℝ
  a10 : ℝ
  a11 : ℝ
  a12 : ℝ

namespace Mat2x3

/-- Multiply a 2×3 block by a 3×3 matrix on the right. -/
def mulMat3 (a : Mat2x3) (b : Mat3) : Mat2x3 :=
  ⟨a.a00 * b.m00 + a.a01 * b.m10 + a.a02 * b.m20,
   a.a00 * b.m01 + a.a01 * b.m11 + a.a02 * b.m21,
   a.a00 * b.m02 + a.a01 * b.m12 + a.a02 * b.m22,
   a.a10 * b.m00 + a.a11 * b.m10 + a.a12 * b.m20,
   a.a10 * b.m01 + a.a11 * b.m11 + a.a12 * b.m21,
   a.a10 * b.m02 + a.a11 * b.m12 + a.a12 * b.m22⟩

/-- Entry access with `ℕ` indices (row < 2, column < 3); out-of-range
indices give `0`. -/
def entry (a : Mat2x3) (i j : ℕ) : ℝ :=
  match i, j with
  | 0, 0 => a.a00
  | 0, 1 => a.a01
  | 0, 2 => a.a02
  | 1, 0 => a.a10
  | 1, 1 => a.a11
  | 1, 2 => a.a12
  | _, _ => 0

end Mat2x3

/-! ## Rotations (`src/utils/mod.rs` and `nalgebra` rotation construction) -/

/-- The skew-symmetric (hat) matrix `[ω]ₓ` of a vector, as written out in
`rotation_jacobian` (`src/utils/mod.rs`). -/
def hat (w : Vec3) : Mat3 :=
  ⟨0, -w.z, w.y,
   w.z, 0, -w.x,
   -w.y, w.x, 0⟩

/-- Euclidean norm of a 3-vector: the rotation angle of the rotation with
scaled-axis vector `w` (for `‖w‖ ≤ π` this is `Rotation3::angle`). -/
noncomputable def angleOf (w : Vec3) : ℝ :=
  Real.sqrt (w.x ^ 2 + w.y ^ 2 + w.z ^ 2)

/-- `Rotation3::from_scaled_axis` / `UnitQuaternion::new`: the rotation
matrix `exp([ω]ₓ)` by the Rodrigues formula (identity at `ω = 0`). -/
noncomputable def rodrigues (w : Vec3) : Mat3 :=
  let θ := angleOf w
  if θ = 0 then Mat3.id
  else
    (Mat3.id.add (Mat3.smul (Real.sin θ / θ) (hat w))).add
      (Mat3.smul ((1 - Real.cos θ) / (θ * θ)) ((hat w).mul (hat w)))

/-- Embedding of `rotation_jacobian` (`src/utils/mod.rs` lines 6–28).

The rotation argument `r : Rotation3` is embedded by its scaled-axis
vector `rw` (the code reads `r.angle()` and `r.scaled_axis()`, and applies
`r` to a vector). -/
noncomputable def rotation_jacobian (rw : Vec3) (v : Vec3) : Mat3 :=
  let θ := angleOf rw
  let omega_hat := hat rw
  let right_jacobian :=
    if θ < 1e-10 then Mat3.id
    else
      (Mat3.id.sub (Mat3.smul ((1 - Real.cos θ) / (θ * θ)) omega_hat)).add
        (Mat3.smul ((θ - Real.sin θ) / (θ * θ * θ)) (omega_hat.mul omega_hat))
  let rotated_v := (rodrigues rw).mulVec v
  (hat rotated_v).mul right_jacobian

/-! ## Data model (`src/tag/tagged_object.rs`, `src/camera.rs`) -/

/-- `ApriltagFamily` (`src/tag/apriltag.rs`). -/
inductive ApriltagFamily where
  | tag16h5
  | tag25h9
  | tag36h10
  | tag36h11
  | tagCircle21h7
  | tagCircle49h12
  | tagCustom48h12
  | tagStandard41h12
  | tagStandard52h13
deriving DecidableEq

/-- `TryFrom<&str> for ApriltagFamily`: recognize a family by its C name.
Failure carries the offending name (`UnsupportedTagFamilyError`). -/
def ApriltagFamily.tryFrom (value : String) : Except String ApriltagFamily :=
  match value with
  | "tag16h5" => .ok .tag16h5
  | "tag25h9" => .ok .tag25h9
  | "tag36h10" => .ok .tag36h10
  | "tag36h11" => .ok .tag36h11
  | "tagCircle21h7" => .ok .tagCircle21h7
  | "tagCircle49h12" => .ok .tagCircle49h12
  | "tagCustom48h12" => .ok .tagCustom48h12
  | "tagStandard41h12" => .ok .tagStandard41h12
  | "tagStandard52h13" => .ok .tagStandard52h13
  | _ => .error value

/-- `TagIndex`: a `(family, id)` pair (`src/tag/tagged_object.rs`). -/
structure TagIndex where
  family : ApriltagFamily
  id : ℤ
deriving DecidableEq

/-- `TagLocation`: the similarity transform from a marker's local frame to
the owning object's frame.  `nalgebra`'s `SimilarityMatrix3` is embedded by
the data it is constructed from in this program: an isotropic scaling
factor, the rotation's scaled-axis vector, and the translation vector
(`TagLocation::new(size, rv, tv)` stores scaling `size * 0.5`). -/
structure TagLocation where
  scaling : ℝ
  rv : Vec3
  tv : Vec3

namespace TagLocation

/-- `TagLocation::new`. -/
noncomputable def new (size : ℝ) (rv tv : Vec3) : TagLocation :=
  ⟨size * 0.5, rv, tv⟩

/-- `SimilarityMatrix3::transform_point`: scale, then rotate, then
translate. -/
noncomputable def transform_point (t : TagLocation) (p : Vec3) : Vec3 :=
  (((rodrigues t.rv).mulVec (Vec3.smul t.scaling p))).add t.tv

end TagLocation

/-- `TaggedObject`: a name plus a marker map.  The `HashMap` is embedded as
an association list in the map's iteration order. -/
structure TaggedObject where
  name : String
  tags : List (TagIndex × TagLocation)

/-- `CameraProperty`, restricted to the two fields the locator reads: the
3×3 intrinsic matrix and the distortion coefficients. -/
structure CameraProperty where
  camera_mat : Mat3
  distortion : List ℝ

/-! ## Errors -/

/-- `ConflictingTagError` (`src/tag/error.rs`): `tag = some i` for a marker
conflict (`new`), `tag = none` for the (unused) name-conflict variant
(`new_name`). -/
structure ConflictingTagError where
  tag : Option TagIndex
  object1 : String
  object2 : String
deriving DecidableEq

/-- `ConflictingTagError::new`. -/
def ConflictingTagError.new (tag : TagIndex) (object1 object2 : String) :
    ConflictingTagError :=
  ⟨some tag, object1, object2⟩

/-- The run-time error taxonomy of the locator functions (all surfaced as
`Box<dyn Error>` in the code). -/
inductive RtErr where
  /-- `SystemTimeError` from `SystemTime::duration_since`. -/
  | sysTime
  /-- A failure reported by the external PnP solver. -/
  | solveFail
  /-- `UnsupportedTagFamilyError` with the offending family name. -/
  | badFamily (name : String)
  /-- The `"(J^T * J) does not have an inverse matrix!"` error of
  `calculate_covariance`. -/
  | singular
deriving DecidableEq

/-! ## The locator state (`src/tag/locator/mod.rs`) -/

/-- One of the five entries of `TAG_CORNERS` (the fifth repeats the
first). -/
def TAG_CORNERS (i : ℕ) : Vec3 :=
  match i with
  | 0 => ⟨-1, 1, 0⟩
  | 1 => ⟨1, 1, 0⟩
  | 2 => ⟨1, -1, 0⟩
  | 3 => ⟨-1, -1, 0⟩
  | _ => ⟨-1, 1, 0⟩

/-- `OBJECT_FORGET_DURATION = Duration::from_secs(1)`, in nanoseconds. -/
def OBJECT_FORGET_DURATION : ℤ := 1000000000

/-- `ApriltagDetection`, restricted to the data the locator reads: the
family name string stored in the C struct, the tag id, and the four corner
pixel coordinates. -/
structure Detection where
  familyName : String
  id : ℤ
  corners : Fin 4 → ℝ × ℝ

/-- `ApriltagDetection::family` (`src/tag/apriltag.rs` lines 144–148). -/
def Detection.family (d : Detection) : Except RtErr ApriltagFamily :=
  match ApriltagFamily.tryFrom d.familyName with
  | .ok f => .ok f
  | .error n => .error (.badFamily n)

/-- `TaggedObjectLocator`'s fields.  `registry` stores the objects by value
(the Rust borrows are irrelevant to behavior); `tag_map` is an association
list from `TagIndex` to `(registry index, TagLocation)`; `last_location`
stores per-object `(rvec, tvec, timestamp)` seeds. -/
structure LocState where
  camera : CameraProperty
  registry : List TaggedObject
  tag_map : List (TagIndex × ℕ × TagLocation)
  last_location : List (Option (Vec3 × Vec3 × ℤ))

/-- `HashMap::get` on the embedded `tag_map`. -/
def lookupTag : List (TagIndex × ℕ × TagLocation) → TagIndex →
    Option (ℕ × TagLocation)
  | [], _ => none
  | (k, v) :: rest, i => if k = i then some v else lookupTag rest i

/-- The conflict scan of `TaggedObjectLocator::add`: walk the new object's
tags in iteration order and return the first one already present in
`tag_map`, with its current owner's registry index. -/
def findConflict (tag_map : List (TagIndex × ℕ × TagLocation)) :
    List (TagIndex × TagLocation) → Option (TagIndex × ℕ)
  | [] => none
  | (ti, _) :: rest =>
    match lookupTag tag_map ti with
    | some (ridx, _) => some (ti, ridx)
    | none => findConflict tag_map rest

/-- A default object (stands for the value behind the unchecked registry
access; only reachable from states violating the registry invariant). -/
def defaultObject : TaggedObject := ⟨"", []⟩

/-- `TaggedObjectLocator::add` (`src/tag/locator/mod.rs` lines 89–109).

Returns the `Result` paired with the resulting locator state; the error
path returns before any mutation, so the state comes back unchanged. -/
def add (st : LocState) (tagobj : TaggedObject) :
    Except ConflictingTagError Unit × LocState :=
  match findConflict st.tag_map tagobj.tags with
  | some (ti, ridx) =>
    (.error (ConflictingTagError.new ti
        ((st.registry.getD ridx defaultObject).name) tagobj.name), st)
  | none =>
    let this_registry_index := st.registry.length
    (.ok (), { st with
      registry := st.registry ++ [tagobj],
      tag_map := st.tag_map ++
        tagobj.tags.map (fun p => (p.1, this_registry_index, p.2)),
      last_location := st.last_location ++ [none] })

/-! ## Helper lemmas about the conflict scan -/

theorem findConflict_eq_none (tag_map : List (TagIndex × ℕ × TagLocation))
    (tags : List (TagIndex × TagLocation))
    (h : ∀ p ∈ tags, lookupTag tag_map p.1 = none) :
    findConflict tag_map tags = none := by
  induction tags with
  | nil => rfl
  | cons hd tl ih =>
    have hhd := h hd (List.mem_cons_self _ _)
    simp only [findConflict, hhd]
    exact ih fun p hp => h p (List.mem_cons_of_mem _ hp)

theorem findConflict_isSome (tag_map : List (TagIndex × ℕ × TagLocation))
    (tags : List (TagIndex × TagLocation))
    (h : ∃ p ∈ tags, (lookupTag tag_map p.1).isSome) :
    ∃ ti ridx loc loc', findConflict tag_map tags = some (ti, ridx) ∧
      (ti, loc) ∈ tags ∧ lookupTag tag_map ti = some (ridx, loc') := by
  induction tags with
  | nil => obtain ⟨p, hp, _⟩ := h; exact absurd hp (List.not_mem_nil p)
  | cons hd tl ih =>
    match hlk : lookupTag tag_map hd.1 with
    | some (ridx, loc') =>
      refine ⟨hd.1, ridx, hd.2, loc', ?_, ?_, hlk⟩
      · simp only [findConflict, hlk]
      · exact List.mem_cons_self _ _
    | none =>
      obtain ⟨p, hp, hps⟩ := h
      rcases List.mem_cons.1 hp with rfl | hptl
      · rw [hlk] at hps; simp at hps
      · obtain ⟨ti, ridx, loc, loc', h1, h2, h3⟩ := ih ⟨p, hptl, hps⟩
        refine ⟨ti, ridx, loc, loc', ?_, List.mem_cons_of_mem _ h2, h3⟩
        simp only [findConflict, hlk, h1]

/-! ## Isometries and the PnP solver interface -/

/-- `nalgebra::Isometry3`, embedded as a rotation matrix plus a translation
vector (the program constructs isometries from rotation-vector /
translation-vector pairs; the rotation matrix is the Rodrigues image). -/
structure Iso3 where
  rot : Mat3
  trans : Vec3

namespace Iso3

/-- `Isometry3::new(tvec, rvec)`: translation `tvec`, rotation with
scaled-axis vector `rvec`. -/
noncomputable def ofVecs (tvec rvec : Vec3) : Iso3 :=
  ⟨rodrigues rvec, tvec⟩

/-- `Isometry3::transform_point`. -/
def transform_point (a : Iso3) (p : Vec3) : Vec3 :=
  (a.rot.mulVec p).add a.trans

/-- Isometry composition (`a * b` in `nalgebra`): apply `b` first. -/
def comp (a b : Iso3) : Iso3 :=
  ⟨a.rot.mul b.rot, (a.rot.mulVec b.trans).add a.trans⟩

/-- `Isometry3::inverse`: the rotation inverts to its transpose. -/
def inv (a : Iso3) : Iso3 :=
  ⟨a.rot.transpose, Vec3.neg (a.rot.transpose.mulVec a.trans)⟩

end Iso3

/-- The rotation-plus-translation part of a `TagLocation`:
`Isometry3::new(t.isometry.translation.vector, t.isometry.rotation.scaled_axis())`
(the scaled-axis round-trip reproduces the same rotation). -/
noncomputable def isoPart (t : TagLocation) : Iso3 :=
  ⟨rodrigues t.rv, t.tv⟩

/-- `calib3d::SOLVEPNP_IPPE_SQUARE` / `calib3d::SOLVEPNP_ITERATIVE`. -/
inductive PnpMethod where
  | ippeSquare
  | iterative
deriving DecidableEq

/-- The external PnP solver, as an oracle with the exact argument list the
code passes to `calib3d::solve_pnp`: flattened object points, flattened
image points, camera matrix, distortion, the `rvec`/`tvec` buffers (the
extrinsic guess when the flag is set), the `useExtrinsicGuess` flag, and
the method.  It returns the solved `(rvec, tvec)` or fails. -/
def PnpSolver : Type :=
  List ℝ → List ℝ → Mat3 → List ℝ → Vec3 → Vec3 → Bool → PnpMethod →
    Except RtErr (Vec3 × Vec3)

/-! ## Single-tag solve (`locate_tag`, lines 135–180) -/

/-- The flattened 4×3 object-point buffer of `locate_tag`:
`TAG_CORNERS[i] * scale` for the four corners. -/
def squareObjectPoints (scale : ℝ) : List ℝ :=
  (List.range 4).flatMap fun i =>
    [(TAG_CORNERS i).x * scale, (TAG_CORNERS i).y * scale,
     (TAG_CORNERS i).z * scale]

/-- The flattened 4×2 image-point buffer: the detection's corners. -/
def imagePointsOf (d : Detection) : List ℝ :=
  (List.range 4).flatMap fun i =>
    [(d.corners ⟨i % 4, Nat.mod_lt _ (by norm_num)⟩).1,
     (d.corners ⟨i % 4, Nat.mod_lt _ (by norm_num)⟩).2]

/-- `TaggedObjectLocator::locate_tag`: the square-specialized 4-point solve
of one detection with `SOLVEPNP_IPPE_SQUARE`, no extrinsic guess, and the
result converted through `Isometry3::new(tvec, rvec)`. -/
noncomputable def locate_tag (solver : PnpSolver) (camera : CameraProperty)
    (d : Detection) (scale : ℝ) : Except RtErr Iso3 :=
  match solver (squareObjectPoints scale) (imagePointsOf d)
      camera.camera_mat camera.distortion Vec3.zero Vec3.zero false
      .ippeSquare with
  | .error e => .error e
  | .ok (rvec, tvec) => .ok (Iso3.ofVecs tvec rvec)

/-! ## Single-object solve (`locate_single_object`, lines 195–278) -/

/-- The flattened object-point buffer of the multi-marker path: for each
detection, the four tag corners pushed through the marker-to-object
transform. -/
noncomputable def multiObjectPoints
    (dets : List (Detection × TagLocation)) : List ℝ :=
  dets.flatMap fun p =>
    (List.range 4).flatMap fun i =>
      let object_point := p.2.transform_point (TAG_CORNERS i)
      [object_point.x, object_point.y, object_point.z]

/-- The flattened image-point buffer of the multi-marker path. -/
def multiImagePoints (dets : List (Detection × TagLocation)) : List ℝ :=
  dets.flatMap fun p => imagePointsOf p.1

/-- The multi-marker tail of `locate_single_object` (lines 227–277): invoke
the iterative solver with the given guess buffers and flag; on success
convert to an isometry and, when a registry index was supplied, overwrite
that object's seed slot with the returned vectors and the timestamp. -/
noncomputable def multiSolve (solver : PnpSolver) (st : LocState)
    (dets : List (Detection × TagLocation)) (object_index : Option ℕ)
    (timestamp : ℤ) (rvec tvec : Vec3) (use_extrinsic_guess : Bool) :
    Except RtErr Iso3 × LocState :=
  match solver (multiObjectPoints dets) (multiImagePoints dets)
      st.camera.camera_mat st.camera.distortion rvec tvec
      use_extrinsic_guess .iterative with
  | .error e => (.error e, st)
  | .ok (rv, tv) =>
    match object_index with
    | some i =>
      (.ok (Iso3.ofVecs tv rv),
       { st with last_location := st.last_location.set i (some (rv, tv, timestamp)) })
    | none => (.ok (Iso3.ofVecs tv rv), st)

/-- The seed-lookup prelude of `locate_single_object` (lines 201–214):
produce the `rvec`/`tvec` buffers and the `use_extrinsic_guess` flag, or
propagate the `SystemTimeError` of `duration_since` when the stored seed's
timestamp is later than the solve timestamp. -/
def seedLookup (st : LocState) (object_index : Option ℕ) (timestamp : ℤ) :
    Except RtErr (Vec3 × Vec3 × Bool) :=
  match object_index with
  | none => .ok (Vec3.zero, Vec3.zero, false)
  | some i =>
    match st.last_location.getD i none with
    | none => .ok (Vec3.zero, Vec3.zero, false)
    | some (r0, t0, ts) =>
      if timestamp < ts then .error .sysTime
      else if timestamp - ts ≤ OBJECT_FORGET_DURATION then .ok (r0, t0, true)
      else .ok (Vec3.zero, Vec3.zero, false)

/-- `TaggedObjectLocator::locate_single_object` (lines 195–278): seed
lookup, then the single-marker fast path (exactly one detection) or the
multi-marker iterative solve. -/
noncomputable def locate_single_object (solver : PnpSolver) (st : LocState)
    (dets : List (Detection × TagLocation)) (object_index : Option ℕ)
    (timestamp : ℤ) : Except RtErr Iso3 × LocState :=
  match seedLookup st object_index timestamp with
  | .error e => (.error e, st)
  | .ok (rvec, tvec, use_extrinsic_guess) =>
    match dets with
    | [(d, tag_to_object)] =>
      match locate_tag solver st.camera d tag_to_object.scaling with
      | .error e => (.error e, st)
      | .ok tag_to_cam =>
        (.ok (tag_to_cam.comp (isoPart tag_to_object).inv), st)
    | _ =>
      multiSolve solver st dets object_index timestamp rvec tvec
        use_extrinsic_guess

/-! ## The shared result store and frame-level locate (lines 282–318) -/

/-- `LocatedObjects`: a timestamp plus the name→pose map.  The `BTreeMap`
is embedded as an association list. -/
structure Store where
  timestamp : ℤ
  name_map : List (String × Iso3)

/-- `BTreeMap::insert` on the embedded name map: replace the value of an
existing key, otherwise add the entry. -/
def storeInsert (m : List (String × Iso3)) (k : String) (v : Iso3) :
    List (String × Iso3) :=
  match m with
  | [] => [(k, v)]
  | (k', v') :: rest =>
    if k' = k then (k, v) :: rest else (k', v') :: storeInsert rest k v

/-- `BTreeMap::entry(idx).or_default().push(item)` on the embedded,
key-sorted classification map. -/
def pushGroup : List (ℕ × List (Detection × TagLocation)) → ℕ →
    (Detection × TagLocation) → List (ℕ × List (Detection × TagLocation))
  | [], i, a => [(i, [a])]
  | (k, items) :: rest, i, a =>
    if i = k then (k, items ++ [a]) :: rest
    else if i < k then (i, [a]) :: (k, items) :: rest
    else (k, items) :: pushGroup rest i a

/-- The classification loop of `locate_objects` (lines 293–301): look up
each detection's `(family, id)` in `tag_map`; a detection with an
unrecognized family name propagates its error (the `?` on
`detection.family()`); an unmapped detection is dropped; a mapped one is
pushed into its owner's group. -/
def classifyAux (st : LocState)
    (acc : List (ℕ × List (Detection × TagLocation))) :
    List Detection → Except RtErr (List (ℕ × List (Detection × TagLocation)))
  | [] => .ok acc
  | d :: rest =>
    match d.family with
    | .error e => .error e
    | .ok f =>
      match lookupTag st.tag_map ⟨f, d.id⟩ with
      | some (ridx, loc) => classifyAux st (pushGroup acc ridx (d, loc)) rest
      | none => classifyAux st acc rest

/-- Classification of one frame's detections by owning registry index. -/
def classify (st : LocState) (dets : List Detection) :
    Except RtErr (List (ℕ × List (Detection × TagLocation))) :=
  classifyAux st [] dets

/-- The store-populating loop of `locate_objects` (lines 307–313): iterate
the classification groups in ascending registry-index order; solve each
object and insert its pose under the object's name; a solve failure
propagates immediately (the `?` inside `insert`). -/
noncomputable def populate (solver : PnpSolver) (timestamp : ℤ) :
    List (ℕ × List (Detection × TagLocation)) → LocState → Store →
      Except RtErr Unit × LocState × Store
  | [], st, store => (.ok (), st, store)
  | (ridx, ds) :: rest, st, store =>
    let name := (st.registry.getD ridx defaultObject).name
    match locate_single_object solver st ds (some ridx) timestamp with
    | (.error e, st') => (.error e, st', store)
    | (.ok pose, st') =>
      populate solver timestamp rest st'
        { store with name_map := storeInsert store.name_map name pose }

/-- `TaggedObjectLocator::locate_objects` (lines 282–318): classify, then
under the store's lock set the new timestamp, clear the map and populate
it; notify the condition variable only after full success.  The returned
`Bool` records whether `notify_all` was reached. -/
noncomputable def locate_objects (solver : PnpSolver) (st : LocState)
    (timestamp : ℤ) (dets : List Detection) (store : Store) :
    Except RtErr Unit × LocState × Store × Bool :=
  match classify st dets with
  | .error e => (.error e, st, store, false)
  | .ok groups =>
    match populate solver timestamp groups st ⟨timestamp, []⟩ with
    | (.ok (), st', store') => (.ok (), st', store', true)
    | (.error e, st', store') => (.error e, st', store', false)

/-- The publisher's `wait_while` predicate (`src/net/mod.rs` lines 35–40):
keep waiting while the timestamp is unchanged or the name map is empty. -/
def waitPred (last_timestamp : ℤ) (s : Store) : Bool :=
  (s.timestamp == last_timestamp) || s.name_map.isEmpty

/-! ## The locate/publish concurrency model

The locate thread and one publisher thread share the store behind a mutex
and a condition variable.  Every lock-protected region is a single atomic
step: the whole clear-and-repopulate of `locate_objects` (the lock is held
from line 304 to the function's exit), and the publisher's
predicate-check-plus-publish between two waits.  `woken` models the
publisher having a pending wakeup from `notify_all`; `pubLast` is the
publisher's `last_timestamp`; `lastCompleted` is ghost state recording the
store contents written by the most recent successfully completed locate
cycle; `published` records, for each observation the publisher made, the
observed store next to the ghost `lastCompleted` at that moment. -/
structure Sys where
  locator : LocState
  store : Store
  woken : Bool
  pubLast : ℤ
  lastCompleted : Option Store
  published : List (Store × Option Store)

/-- Effect of one `locate_objects` call on the shared system. -/
noncomputable def applyLocate (solver : PnpSolver) (t : ℤ)
    (dets : List Detection) (s : Sys) : Sys :=
  let r := locate_objects solver s.locator t dets s.store
  { locator := r.2.1, store := r.2.2.1,
    woken := s.woken || r.2.2.2,
    pubLast := s.pubLast,
    lastCompleted := if r.1.isOk then some r.2.2.1 else s.lastCompleted,
    published := s.published }

/-- Effect of the publisher waking up with the lock, finding its wait
predicate false, and publishing the store's contents (then re-entering the
wait with `last_timestamp` set to the observed timestamp). -/
def observeSys (s : Sys) : Sys :=
  { s with pubLast := s.store.timestamp,
           published := (s.store, s.lastCompleted) :: s.published,
           woken := false }

/-- Interleaving steps of the locate and publish threads. -/
inductive Step : Sys → Sys → Prop
  | locate (solver : PnpSolver) (t : ℤ) (dets : List Detection) (s : Sys) :
      Step s (applyLocate solver t dets s)
  | observe (s : Sys) (h1 : s.woken = true)
      (h2 : waitPred s.pubLast s.store = false) :
      Step s (observeSys s)

/-- The steps of runs in which every locate cycle completes successfully
(no per-object solve failure and no classification failure). -/
inductive StepOk : Sys → Sys → Prop
  | locate (solver : PnpSolver) (t : ℤ) (dets : List Detection) (s : Sys)
      (hok : (locate_objects solver s.locator t dets s.store).1.isOk = true) :
      StepOk s (applyLocate solver t dets s)
  | observe (s : Sys) (h1 : s.woken = true)
      (h2 : waitPred s.pubLast s.store = false) :
      StepOk s (observeSys s)

/-- Pipeline start: `LocatedObjects::new()` (empty map), no pending wakeup,
no completed cycle, nothing published. -/
def initSys (L : LocState) (t0 tp : ℤ) : Sys :=
  ⟨L, ⟨t0, []⟩, false, tp, none, []⟩

/-! ## Concrete fixtures used by witnesses and counterexamples -/

namespace Fix

def ti0 : TagIndex := ⟨.tag36h11, 0⟩

def ti1 : TagIndex := ⟨.tag36h11, 1⟩

/-- A marker location with scaling 1 (side length 2) and no rotation or
translation. -/
noncomputable def loc1 : TagLocation := ⟨1, Vec3.zero, Vec3.zero⟩

/-- A marker location with scaling 2 (side length 4) and no rotation or
translation. -/
noncomputable def loc2 : TagLocation := ⟨2, Vec3.zero, Vec3.zero⟩

noncomputable def objA : TaggedObject := ⟨"screen", [(ti0, loc1)]⟩

noncomputable def objB : TaggedObject := ⟨"wand", [(ti1, loc2)]⟩

/-- An object sharing `objA`'s name but carrying a disjoint marker. -/
noncomputable def objA' : TaggedObject := ⟨"screen", [(ti1, loc2)]⟩

noncomputable def cam : CameraProperty := ⟨Mat3.id, [0, 0, 0, 0, 0]⟩

/-- An empty locator. -/
noncomputable def empty : LocState := ⟨cam, [], [], []⟩

/-- The locator holding `objA` and `objB` (the state `add` produces). -/
noncomputable def stAB : LocState :=
  ⟨cam, [objA, objB], [(ti0, 0, loc1), (ti1, 1, loc2)], [none, none]⟩

/-- A detection of marker `(tag36h11, 0)`; corner pixels are irrelevant to
the control flow under study. -/
noncomputable def detA : Detection := ⟨"tag36h11", 0, fun _ => (0, 0)⟩

/-- A detection of marker `(tag36h11, 1)`, with corners at pixel 5 so that
a fixture solver can tell it apart from `detA`. -/
noncomputable def detB : Detection := ⟨"tag36h11", 1, fun _ => (5, 5)⟩

/-- A detection whose family name the program does not recognize. -/
noncomputable def detX : Detection := ⟨"tagFoo", 7, fun _ => (0, 0)⟩

/-- A PnP solver oracle that always succeeds. -/
noncomputable def okSolver : PnpSolver :=
  fun _ _ _ _ _ _ _ _ => .ok (Vec3.zero, Vec3.zero)

end Fix

/-! ## C1 — conflicting-marker registration fails with no mutation -/

/-- **C1.** If a `TaggedObject` declares at least one marker whose
`TagIndex` is already in `tag_map`, `add` returns a `ConflictingTagError`
naming a colliding marker, the marker's current owner and the new object,
and returns the locator state unchanged (no partial registration). -/
theorem add_conflict_all_or_nothing (st : LocState) (tagobj : TaggedObject)
    (h : ∃ p ∈ tagobj.tags, (lookupTag st.tag_map p.1).isSome = true) :
    (add st tagobj).2 = st ∧
    ∃ ti ridx loc loc',
      (ti, loc) ∈ tagobj.tags ∧
      lookupTag st.tag_map ti = some (ridx, loc') ∧
      (add st tagobj).1 = .error (ConflictingTagError.new ti
        ((st.registry.getD ridx defaultObject).name) tagobj.name) := by
  obtain ⟨ti, ridx, loc, loc', h1, h2, h3⟩ := findConflict_isSome _ _ h
  refine ⟨by simp [add, h1], ti, ridx, loc, loc', h2, h3, by simp [add, h1]⟩

/-- Witness for C1: registering an object that re-uses `objA`'s marker
`(tag36h11, 0)` against the registry already holding `objA` and `objB`. -/
theorem add_conflict_all_or_nothing_witness :
    (∃ p ∈ (⟨"third", [(Fix.ti0, Fix.loc2)]⟩ : TaggedObject).tags,
      (lookupTag Fix.stAB.tag_map p.1).isSome = true) ∧
    ((add Fix.stAB ⟨"third", [(Fix.ti0, Fix.loc2)]⟩).2 = Fix.stAB ∧
     ∃ ti ridx loc loc',
       (ti, loc) ∈ (⟨"third", [(Fix.ti0, Fix.loc2)]⟩ : TaggedObject).tags ∧
       lookupTag Fix.stAB.tag_map ti = some (ridx, loc') ∧
       (add Fix.stAB ⟨"third", [(Fix.ti0, Fix.loc2)]⟩).1 =
         .error (ConflictingTagError.new ti
           ((Fix.stAB.registry.getD ridx defaultObject).name) "third") ) :=
  ⟨⟨(Fix.ti0, Fix.loc2), by simp [Fix.stAB, lookupTag]⟩,
   add_conflict_all_or_nothing Fix.stAB ⟨"third", [(Fix.ti0, Fix.loc2)]⟩
     ⟨(Fix.ti0, Fix.loc2), by simp [Fix.stAB, lookupTag]⟩⟩

/-! ## C6 — duplicate object names are NOT rejected by `add` -/

/-- **C6 counterexample.** Two objects with the same name `"screen"` but
disjoint marker sets both register successfully: `add` performs no name
check (`ConflictingTagError::new_name` exists in `src/tag/error.rs` but is
never called). -/
theorem add_duplicate_name_accepted :
    Fix.objA.name = Fix.objA'.name ∧
    (add Fix.empty Fix.objA).1 = .ok () ∧
    (add (add Fix.empty Fix.objA).2 Fix.objA').1 = .ok () := by
  refine ⟨rfl, ?_, ?_⟩ <;>
    simp [add, Fix.empty, Fix.objA, Fix.objA', findConflict, lookupTag,
      Fix.ti0, Fix.ti1, TagIndex.mk.injEq]

/-- **C6 amended.** `add` checks only marker conflicts: whenever none of
the new object's markers is in `tag_map`, registration succeeds, even if a
registered object already carries the same name. -/
theorem add_succeeds_despite_duplicate_name (st : LocState)
    (tagobj : TaggedObject)
    (hdisjoint : ∀ p ∈ tagobj.tags, lookupTag st.tag_map p.1 = none)
    (_hname : ∃ o ∈ st.registry, o.name = tagobj.name) :
    (add st tagobj).1 = .ok () := by
  simp [add, findConflict_eq_none st.tag_map tagobj.tags hdisjoint]

/-- Witness for the amended C6: adding `objA'` (same name as `objA`,
disjoint marker) to the registry that holds only `objA`. -/
theorem add_succeeds_despite_duplicate_name_witness :
    (∀ p ∈ Fix.objA'.tags,
        lookupTag (add Fix.empty Fix.objA).2.tag_map p.1 = none) ∧
    (∃ o ∈ (add Fix.empty Fix.objA).2.registry, o.name = Fix.objA'.name) ∧
    (add (add Fix.empty Fix.objA).2 Fix.objA').1 = .ok () := by
  have hdisjoint : ∀ p ∈ Fix.objA'.tags,
      lookupTag (add Fix.empty Fix.objA).2.tag_map p.1 = none := by
    intro p hp
    simp only [Fix.objA', List.mem_singleton] at hp
    subst hp
    simp [add, Fix.empty, Fix.objA, findConflict, lookupTag,
      Fix.ti0, Fix.ti1, TagIndex.mk.injEq]
  have hname : ∃ o ∈ (add Fix.empty Fix.objA).2.registry,
      o.name = Fix.objA'.name := by
    refine ⟨Fix.objA, ?_, rfl⟩
    simp [add, Fix.empty, Fix.objA, findConflict, lookupTag]
  exact ⟨hdisjoint, hname,
    add_succeeds_despite_duplicate_name _ _ hdisjoint hname⟩

/-! ## C7 — the single-marker fast path -/

/-- **C7.** With exactly one detection, `locate_single_object` (apart from
the seed-lookup's possible `SystemTimeError`) returns exactly the
square-specialized solve of that marker at scale `tag_to_object.scaling`
(the marker's half side length) composed with the inverse of the
rotation-plus-translation part of the marker-to-object transform, and the
locator state — in particular the seed slot — comes back unchanged; the
seed vectors are never handed to the solver (`locate_tag` hard-codes an
absent extrinsic guess). -/
theorem locate_single_object_fast_path (solver : PnpSolver) (st : LocState)
    (d : Detection) (tag_to_object : TagLocation) (object_index : Option ℕ)
    (timestamp : ℤ) :
    locate_single_object solver st [(d, tag_to_object)] object_index
        timestamp =
      ((match seedLookup st object_index timestamp with
        | .error e => .error e
        | .ok _ =>
          match locate_tag solver st.camera d tag_to_object.scaling with
          | .error e => .error e
          | .ok tag_to_cam => .ok (tag_to_cam.comp (isoPart tag_to_object).inv)),
       st) := by
  unfold locate_single_object
  cases h : seedLookup st object_index timestamp with
  | error e => rfl
  | ok v =>
    obtain ⟨rv, tv, g⟩ := v
    cases h2 : locate_tag solver st.camera d tag_to_object.scaling <;>
      simp [h2]

/-! ## C3 — seed reuse and the forget window -/

/-- **C3 counterexample.** A solve timestamp *earlier* than the stored
seed's timestamp does not make the locator "solve cold": the
`SystemTime::duration_since` call fails and the `?` propagates the error,
so `locate_single_object` fails outright even though the PnP solver (here
an always-succeeding oracle) was never consulted.  Here the seed is at
time 5 and the solve is requested at time 3 with two detections. -/
theorem locate_single_object_past_timestamp_errors :
    locate_single_object Fix.okSolver
      { Fix.stAB with last_location :=
          [some (Vec3.zero, Vec3.zero, 5), none] }
      [(Fix.detA, Fix.loc1), (Fix.detB, Fix.loc2)] (some 0) 3 =
    (.error .sysTime,
     { Fix.stAB with last_location :=
         [some (Vec3.zero, Vec3.zero, 5), none] }) := by
  simp [locate_single_object, seedLookup]

/-- **C3 amended.** For a multi-marker solve (`≥ 2` detections) on an
object whose seed slot is filled with `(r0, t0, ts)`: when the solve
timestamp is not earlier than `ts`, the stored vectors are passed to the
PnP solver as an extrinsic guess exactly when the age `t - ts` is at most
the 1-second forget window (the exactly-1-second boundary is inclusive);
an older seed leads to a cold solve (no guess).  When the solve timestamp
is earlier than `ts`, the call fails with the `duration_since` error
instead of solving cold.  An empty seed slot also solves cold. -/
theorem locate_single_object_seed_policy (solver : PnpSolver)
    (st : LocState) (dets : List (Detection × TagLocation)) (i : ℕ)
    (t : ℤ) (hlen : 2 ≤ dets.length) :
    locate_single_object solver st dets (some i) t =
      match st.last_location.getD i none with
      | none => multiSolve solver st dets (some i) t Vec3.zero Vec3.zero false
      | some (r0, t0, ts) =>
        if t < ts then (.error .sysTime, st)
        else if t - ts ≤ OBJECT_FORGET_DURATION then
          multiSolve solver st dets (some i) t r0 t0 true
        else
          multiSolve solver st dets (some i) t Vec3.zero Vec3.zero false := by
  match dets, hlen with
  | [], h => simp at h
  | [p], h => simp at h
  | p :: q :: rest, _ =>
    cases hseed : st.last_location.getD i none with
    | none =>
      simp only [locate_single_object, seedLookup, hseed]
    | some s =>
      obtain ⟨r0, t0, ts⟩ := s
      by_cases hlt : t < ts
      · simp only [locate_single_object, seedLookup, hseed, if_pos hlt]
      · by_cases hage : t - ts ≤ OBJECT_FORGET_DURATION
        · simp only [locate_single_object, seedLookup, hseed, if_neg hlt,
            if_pos hage]
        · simp only [locate_single_object, seedLookup, hseed, if_neg hlt,
            if_neg hage]

/-- Witness for the amended C3: a seed stored at time 5, solved at time 6
plus exactly the forget window (boundary inclusive, guess used), with two
detections. -/
theorem locate_single_object_seed_policy_witness :
    (2 ≤ ([(Fix.detA, Fix.loc1), (Fix.detB, Fix.loc2)] : List _).length) ∧
    locate_single_object Fix.okSolver
        { Fix.stAB with last_location :=
            [some (Vec3.zero, Vec3.zero, 5), none] }
        [(Fix.detA, Fix.loc1), (Fix.detB, Fix.loc2)] (some 0)
        (5 + OBJECT_FORGET_DURATION) =
      match ({ Fix.stAB with last_location :=
          [some (Vec3.zero, Vec3.zero, 5), none] } :
            LocState).last_location.getD 0 none with
      | none =>
        multiSolve Fix.okSolver
          { Fix.stAB with last_location :=
              [some (Vec3.zero, Vec3.zero, 5), none] }
          [(Fix.detA, Fix.loc1), (Fix.detB, Fix.loc2)] (some 0)
          (5 + OBJECT_FORGET_DURATION) Vec3.zero Vec3.zero false
      | some (r0, t0, ts) =>
        if (5 + OBJECT_FORGET_DURATION : ℤ) < ts then
          (.error .sysTime,
           { Fix.stAB with last_location :=
               [some (Vec3.zero, Vec3.zero, 5), none] })
        else if (5 + OBJECT_FORGET_DURATION : ℤ) - ts ≤
            OBJECT_FORGET_DURATION then
          multiSolve Fix.okSolver
            { Fix.stAB with last_location :=
                [some (Vec3.zero, Vec3.zero, 5), none] }
            [(Fix.detA, Fix.loc1), (Fix.detB, Fix.loc2)] (some 0)
            (5 + OBJECT_FORGET_DURATION) r0 t0 true
        else
          multiSolve Fix.okSolver
            { Fix.stAB with last_location :=
                [some (Vec3.zero, Vec3.zero, 5), none] }
            [(Fix.detA, Fix.loc1), (Fix.detB, Fix.loc2)] (some 0)
            (5 + OBJECT_FORGET_DURATION) Vec3.zero Vec3.zero false :=
  ⟨by norm_num,
   locate_single_object_seed_policy Fix.okSolver
     { Fix.stAB with last_location := [some (Vec3.zero, Vec3.zero, 5), none] }
     [(Fix.detA, Fix.loc1), (Fix.detB, Fix.loc2)] 0
     (5 + OBJECT_FORGET_DURATION) (by norm_num)⟩

/-! ## Helper lemmas about `populate` and `classify` -/

theorem populate_append (solver : PnpSolver) (t : ℤ) :
    ∀ (pre rest : List (ℕ × List (Detection × TagLocation)))
      (st : LocState) (store : Store) (st1 : LocState) (store1 : Store),
      populate solver t pre st store = (.ok (), st1, store1) →
      populate solver t (pre ++ rest) st store =
        populate solver t rest st1 store1 := by
  intro pre
  induction pre with
  | nil =>
    intro rest st store st1 store1 h
    simp only [populate, Prod.mk.injEq, true_and] at h
    obtain ⟨rfl, rfl⟩ := h
    rfl
  | cons hd tl ih =>
    intro rest st store st1 store1 h
    obtain ⟨ridx, ds⟩ := hd
    rcases hres : locate_single_object solver st ds (some ridx) t with ⟨res, st'⟩
    cases res with
    | error e =>
      simp [populate, hres] at h
    | ok pose =>
      simp only [populate, hres] at h
      simp only [List.cons_append, populate, hres]
      exact ih rest st' _ st1 store1 h

/-- Membership in `pushGroup`: any item of any group of the result is
either the newly pushed item in the target group, or an item of a group
already present. -/
theorem pushGroup_mem_rev :
    ∀ (acc : List (ℕ × List (Detection × TagLocation))) (i : ℕ)
      (a : Detection × TagLocation) (j : ℕ)
      (items : List (Detection × TagLocation)),
      (j, items) ∈ pushGroup acc i a → ∀ p ∈ items,
        (j = i ∧ p = a) ∨ ∃ items', (j, items') ∈ acc ∧ p ∈ items' := by
  intro acc
  induction acc with
  | nil =>
    intro i a j items hmem p hp
    simp only [pushGroup, List.mem_singleton, Prod.mk.injEq] at hmem
    obtain ⟨rfl, rfl⟩ := hmem
    simp only [List.mem_singleton] at hp
    exact Or.inl ⟨rfl, hp⟩
  | cons hd tl ih =>
    intro i a j items hmem p hp
    obtain ⟨k, kitems⟩ := hd
    simp only [pushGroup] at hmem
    by_cases hik : i = k
    · simp only [if_pos hik] at hmem
      rcases List.mem_cons.1 hmem with heq | htl
      · injection heq with hj hitems
        subst hj; subst hitems
        rcases List.mem_append.1 hp with hold | hnew
        · exact Or.inr ⟨kitems, List.mem_cons_self _ _, hold⟩
        · simp only [List.mem_singleton] at hnew
          exact Or.inl ⟨hik.symm, hnew⟩
      · exact Or.inr ⟨items, List.mem_cons_of_mem _ htl, hp⟩
    · simp only [if_neg hik] at hmem
      by_cases hlt : i < k
      · simp only [if_pos hlt] at hmem
        rcases List.mem_cons.1 hmem with heq | htl
        · injection heq with hj hitems
          subst hj; subst hitems
          simp only [List.mem_singleton] at hp
          exact Or.inl ⟨rfl, hp⟩
        · exact Or.inr ⟨items, htl, hp⟩
      · simp only [if_neg hlt] at hmem
        rcases List.mem_cons.1 hmem with heq | htl
        · exact Or.inr ⟨items, heq ▸ List.mem_cons_self _ _, hp⟩
        · rcases ih i a j items htl p hp with h | ⟨items', h1, h2⟩
          · exact Or.inl h
          · exact Or.inr ⟨items', List.mem_cons_of_mem _ h1, h2⟩

/-- `pushGroup` keeps every existing item (possibly in a grown group). -/
theorem pushGroup_mono :
    ∀ (acc : List (ℕ × List (Detection × TagLocation))) (i : ℕ)
      (a : Detection × TagLocation) (j : ℕ)
      (items : List (Detection × TagLocation)),
      (j, items) ∈ acc → ∀ p ∈ items,
        ∃ items', (j, items') ∈ pushGroup acc i a ∧ p ∈ items' := by
  intro acc
  induction acc with
  | nil => intro i a j items hmem; exact absurd hmem (List.not_mem_nil _)
  | cons hd tl ih =>
    intro i a j items hmem p hp
    obtain ⟨k, kitems⟩ := hd
    simp only [pushGroup]
    by_cases hik : i = k
    · simp only [if_pos hik]
      rcases List.mem_cons.1 hmem with heq | htl
      · injection heq with hj hitems
        subst hj; subst hitems
        exact ⟨items ++ [a], List.mem_cons_self _ _,
          List.mem_append.2 (Or.inl hp)⟩
      · exact ⟨items, List.mem_cons_of_mem _ htl, hp⟩
    · simp only [if_neg hik]
      by_cases hlt : i < k
      · simp only [if_pos hlt]
        exact ⟨items, List.mem_cons_of_mem _ hmem, hp⟩
      · simp only [if_neg hlt]
        rcases List.mem_cons.1 hmem with heq | htl
        · exact ⟨items, heq ▸ List.mem_cons_self _ _, hp⟩
        · obtain ⟨items', h1, h2⟩ := ih i a j items htl p hp
          exact ⟨items', List.mem_cons_of_mem _ h1, h2⟩

/-- `pushGroup` puts the pushed item into the target group. -/
theorem pushGroup_adds :
    ∀ (acc : List (ℕ × List (Detection × TagLocation))) (i : ℕ)
      (a : Detection × TagLocation),
      ∃ items, (i, items) ∈ pushGroup acc i a ∧ a ∈ items := by
  intro acc
  induction acc with
  | nil =>
    intro i a
    exact ⟨[a], List.mem_singleton.2 rfl, List.mem_singleton.2 rfl⟩
  | cons hd tl ih =>
    intro i a
    obtain ⟨k, kitems⟩ := hd
    simp only [pushGroup]
    by_cases hik : i = k
    · simp only [if_pos hik]
      subst hik
      exact ⟨kitems ++ [a], List.mem_cons_self _ _,
        List.mem_append.2 (Or.inr (List.mem_singleton.2 rfl))⟩
    · simp only [if_neg hik]
      by_cases hlt : i < k
      · simp only [if_pos hlt]
        exact ⟨[a], List.mem_cons_self _ _, List.mem_singleton.2 rfl⟩
      · simp only [if_neg hlt]
        obtain ⟨items, h1, h2⟩ := ih i a
        exact ⟨items, List.mem_cons_of_mem _ h1, h2⟩

/-- `classifyAux` keeps every accumulated item. -/
theorem classifyAux_mono (st : LocState) :
    ∀ (dets : List Detection)
      (acc gs : List (ℕ × List (Detection × TagLocation))),
      classifyAux st acc dets = .ok gs → ∀ j items, (j, items) ∈ acc →
        ∀ p ∈ items, ∃ items', (j, items') ∈ gs ∧ p ∈ items' := by
  intro dets
  induction dets with
  | nil =>
    intro acc gs h j items hmem p hp
    simp only [classifyAux] at h
    cases h
    exact ⟨items, hmem, hp⟩
  | cons d rest ih =>
    intro acc gs h j items hmem p hp
    cases hfam : d.family with
    | error e => simp only [classifyAux, hfam] at h; exact Except.noConfusion h
    | ok f =>
      cases hlk : lookupTag st.tag_map ⟨f, d.id⟩ with
      | none =>
        simp only [classifyAux, hfam, hlk] at h
        exact ih acc gs h j items hmem p hp
      | some v =>
        obtain ⟨ridx, loc⟩ := v
        simp only [classifyAux, hfam, hlk] at h
        obtain ⟨items', h1, h2⟩ := pushGroup_mono acc ridx (d, loc) j items hmem p hp
        exact ih _ gs h j items' h1 p h2

/-- Invariant carried by the classification loop: every grouped item was
put there by a successful `tag_map` lookup of its own detection. -/
def GroupsSound (st : LocState)
    (gs : List (ℕ × List (Detection × TagLocation))) : Prop :=
  ∀ q ∈ gs, ∀ p ∈ q.2, ∃ f, p.1.family = .ok f ∧
    lookupTag st.tag_map ⟨f, p.1.id⟩ = some (q.1, p.2)

theorem classifyAux_sound (st : LocState) :
    ∀ (dets : List Detection)
      (acc gs : List (ℕ × List (Detection × TagLocation))),
      classifyAux st acc dets = .ok gs → GroupsSound st acc →
      GroupsSound st gs := by
  intro dets
  induction dets with
  | nil =>
    intro acc gs h hacc
    simp only [classifyAux] at h
    cases h
    exact hacc
  | cons d rest ih =>
    intro acc gs h hacc
    cases hfam : d.family with
    | error e => simp only [classifyAux, hfam] at h; exact Except.noConfusion h
    | ok f =>
      cases hlk : lookupTag st.tag_map ⟨f, d.id⟩ with
      | none =>
        simp only [classifyAux, hfam, hlk] at h
        exact ih acc gs h hacc
      | some v =>
        obtain ⟨ridx, loc⟩ := v
        simp only [classifyAux, hfam, hlk] at h
        refine ih _ gs h ?_
        intro q hq p hp
        rcases pushGroup_mem_rev acc ridx (d, loc) q.1 q.2
            (Prod.mk.eta ▸ hq) p hp with ⟨hji, rfl⟩ | ⟨items', h1, h2⟩
        · exact ⟨f, hfam, hji ▸ hlk⟩
        · exact hacc (q.1, items') h1 p h2

/-- Every detection whose `(family, id)` pair is mapped ends up in its
owner's group, paired with the stored location. -/
theorem classifyAux_complete (st : LocState) :
    ∀ (dets : List Detection)
      (acc gs : List (ℕ × List (Detection × TagLocation))),
      classifyAux st acc dets = .ok gs →
      ∀ d ∈ dets, ∀ f, d.family = .ok f → ∀ ridx loc,
        lookupTag st.tag_map ⟨f, d.id⟩ = some (ridx, loc) →
        ∃ items, (ridx, items) ∈ gs ∧ (d, loc) ∈ items := by
  intro dets
  induction dets with
  | nil =>
    intro acc gs _ d hd
    exact absurd hd (List.not_mem_nil d)
  | cons d0 rest ih =>
    intro acc gs h d hd f hf ridx loc hlk
    rcases List.mem_cons.1 hd with rfl | hdrest
    · simp only [classifyAux, hf, hlk] at h
      obtain ⟨items, h1, h2⟩ := pushGroup_adds acc ridx (d, loc)
      obtain ⟨items', h3, h4⟩ :=
        classifyAux_mono st rest _ gs h ridx items h1 (d, loc) h2
      exact ⟨items', h3, h4⟩
    · cases hfam : d0.family with
      | error e => simp only [classifyAux, hfam] at h; exact Except.noConfusion h
      | ok f0 =>
        cases hlk0 : lookupTag st.tag_map ⟨f0, d0.id⟩ with
        | none =>
          simp only [classifyAux, hfam, hlk0] at h
          exact ih acc gs h d hdrest f hf ridx loc hlk
        | some v =>
          obtain ⟨ridx0, loc0⟩ := v
          simp only [classifyAux, hfam, hlk0] at h
          exact ih _ gs h d hdrest f hf ridx loc hlk

/-- Classification succeeds whenever every detection's family is
recognized. -/
theorem classifyAux_isOk (st : LocState) :
    ∀ (dets : List Detection)
      (acc : List (ℕ × List (Detection × TagLocation))),
      (∀ d ∈ dets, (Detection.family d).isOk = true) →
      ∃ gs, classifyAux st acc dets = .ok gs := by
  intro dets
  induction dets with
  | nil => intro acc _; exact ⟨acc, rfl⟩
  | cons d rest ih =>
    intro acc hfam
    have hd := hfam d (List.mem_cons_self _ _)
    cases hfd : d.family with
    | error e => rw [hfd] at hd; simp [Except.isOk, Except.toBool] at hd
    | ok f =>
      have hrest := fun d' hd' => hfam d' (List.mem_cons_of_mem _ hd')
      simp only [classifyAux, hfd]
      cases hlk : lookupTag st.tag_map ⟨f, d.id⟩ with
      | none => exact ih acc hrest
      | some v =>
        obtain ⟨ridx, loc⟩ := v
        exact ih _ hrest

/-! ## C9 — a per-object solve failure aborts the whole frame -/

/-- **C9.** If, while `locate_objects` repopulates the store group by group
(in ascending registry-index order), the solve of some object with at
least one matched detection fails, then the whole frame fails with that
error: the function returns the failure, the store keeps only the poses of
the objects processed before the failing one, and no object after it in
registry-index order is solved (its group's poses are never inserted);
`notify_all` is not reached. -/
theorem locate_objects_hard_error (solver : PnpSolver) (st : LocState)
    (t : ℤ) (dets : List Detection) (store : Store)
    (pre post : List (ℕ × List (Detection × TagLocation))) (k : ℕ)
    (g : List (Detection × TagLocation))
    (hclass : classify st dets = .ok (pre ++ (k, g) :: post))
    (st1 : LocState) (store1 : Store)
    (hpre : populate solver t pre st ⟨t, []⟩ = (.ok (), st1, store1))
    (e : RtErr) (st2 : LocState)
    (hfail : locate_single_object solver st1 g (some k) t =
      (.error e, st2)) :
    locate_objects solver st t dets store = (.error e, st2, store1, false) := by
  have hpop : populate solver t (pre ++ (k, g) :: post) st ⟨t, []⟩ =
      (.error e, st2, store1) := by
    rw [populate_append solver t pre ((k, g) :: post) st ⟨t, []⟩ st1 store1
      hpre]
    simp only [populate, hfail]
  simp only [locate_objects, hclass, hpop]

/-- A PnP solver oracle that always fails. -/
noncomputable def failSolver : PnpSolver :=
  fun _ _ _ _ _ _ _ _ => .error .solveFail

/-- Witness for C9: one visible object whose solve fails; the frame
errors, the store stays cleared and no notification happens. -/
theorem locate_objects_hard_error_witness :
    (classify Fix.stAB [Fix.detA] =
      .ok ([] ++ (0, [(Fix.detA, Fix.loc1)]) :: [])) ∧
    (populate failSolver 4 [] Fix.stAB ⟨4, []⟩ =
      (.ok (), Fix.stAB, ⟨4, []⟩)) ∧
    (locate_single_object failSolver Fix.stAB [(Fix.detA, Fix.loc1)]
      (some 0) 4 = (.error .solveFail, Fix.stAB)) ∧
    locate_objects failSolver Fix.stAB 4 [Fix.detA] ⟨0, []⟩ =
      (.error .solveFail, Fix.stAB, ⟨4, []⟩, false) :=
  ⟨rfl, rfl, rfl,
   locate_objects_hard_error failSolver Fix.stAB 4 [Fix.detA] ⟨0, []⟩
     [] [] 0 [(Fix.detA, Fix.loc1)] rfl Fix.stAB ⟨4, []⟩ rfl
     .solveFail Fix.stAB rfl⟩

/-! ## C10 — classification: silent drops and the family check -/

/-- **C10 counterexample.** A detection whose family string is not one of
the nine recognized names is *not* silently dropped: `detection.family()?`
propagates an `UnsupportedTagFamilyError` and the entire frame fails
(store untouched, no notification). -/
theorem locate_objects_unknown_family_errors :
    locate_objects Fix.okSolver Fix.stAB 9 [Fix.detX] ⟨0, []⟩ =
      (.error (.badFamily "tagFoo"), Fix.stAB, ⟨0, []⟩, false) := rfl

/-- **C10 amended.** When every detection's family is recognized,
classification succeeds and behaves as the claim describes: a detection
whose `(family, id)` pair is not in `tag_map` lands in no group (silently
dropped, no error), and a mapped detection is grouped under its owner's
registry index paired with the stored marker-to-object transform. -/
theorem classify_silent_drop (st : LocState) (dets : List Detection)
    (hfam : ∀ d ∈ dets, (Detection.family d).isOk = true) :
    ∃ gs, classify st dets = .ok gs ∧
      (∀ d ∈ dets, ∀ f, d.family = .ok f →
        lookupTag st.tag_map ⟨f, d.id⟩ = none →
        ∀ q ∈ gs, ∀ loc, (d, loc) ∉ q.2) ∧
      (∀ d ∈ dets, ∀ f, d.family = .ok f → ∀ ridx loc,
        lookupTag st.tag_map ⟨f, d.id⟩ = some (ridx, loc) →
        ∃ items, (ridx, items) ∈ gs ∧ (d, loc) ∈ items) := by
  obtain ⟨gs, hgs⟩ := classifyAux_isOk st dets [] hfam
  refine ⟨gs, hgs, ?_, ?_⟩
  · intro d hd f hf hnone q hq loc hmem
    have hsound := classifyAux_sound st dets [] gs hgs
      (fun q hq => absurd hq (List.not_mem_nil _))
    obtain ⟨f', hf', hlk'⟩ := hsound q hq (d, loc) hmem
    rw [hf] at hf'
    injection hf' with hff
    subst hff
    rw [hnone] at hlk'
    exact Option.noConfusion hlk'
  · intro d hd f hf ridx loc hlk
    exact classifyAux_complete st dets [] gs hgs d hd f hf ridx loc hlk

/-- A detection with a recognized family but an id mapped to no object. -/
noncomputable def detU : Detection := ⟨"tag36h11", 99, fun _ => (0, 0)⟩

/-- Witness for the amended C10: one unmapped and one mapped detection. -/
theorem classify_silent_drop_witness :
    (∀ d ∈ [detU, Fix.detA], (Detection.family d).isOk = true) ∧
    (∃ gs, classify Fix.stAB [detU, Fix.detA] = .ok gs ∧
      (∀ d ∈ [detU, Fix.detA], ∀ f, d.family = .ok f →
        lookupTag Fix.stAB.tag_map ⟨f, d.id⟩ = none →
        ∀ q ∈ gs, ∀ loc, (d, loc) ∉ q.2) ∧
      (∀ d ∈ [detU, Fix.detA], ∀ f, d.family = .ok f → ∀ ridx loc,
        lookupTag Fix.stAB.tag_map ⟨f, d.id⟩ = some (ridx, loc) →
        ∃ items, (ridx, items) ∈ gs ∧ (d, loc) ∈ items)) := by
  have hfam : ∀ d ∈ [detU, Fix.detA], (Detection.family d).isOk = true := by
    intro d hd
    rcases List.mem_cons.1 hd with rfl | hd
    · rfl
    · rcases List.mem_cons.1 hd with rfl | hd
      · rfl
      · exact absurd hd (List.not_mem_nil _)
  exact ⟨hfam, classify_silent_drop Fix.stAB [detU, Fix.detA] hfam⟩

/-! ## C5 — empty frames notify but cannot be observed -/

/-- **C5 counterexample.** For a frame with no detections the store is
updated (fresh timestamp 7, cleared map) and `notify_all` *is* reached —
but the publisher's wait predicate (`src/net/mod.rs` line 38) is still
`true` on the resulting store even for a publisher whose remembered
timestamp 0 differs from the fresh one, because the predicate keeps
waiting while the name map is empty.  A publisher blocked on the condition
variable therefore does not observe the loss-of-track frame's fresh
timestamp. -/
theorem locate_objects_empty_frame_blocked :
    locate_objects Fix.okSolver Fix.stAB 7 []
        ⟨0, [("screen", ⟨Mat3.id, Vec3.zero⟩)]⟩ =
      (.ok (), Fix.stAB, ⟨7, []⟩, true) ∧
    waitPred 0 ⟨7, []⟩ = true :=
  ⟨rfl, rfl⟩

/-- **C5 amended.** Whenever a frame's classification yields no groups
(no detections, or none mapped), `locate_objects` still updates the store
to the fresh timestamp with a cleared map and wakes all waiters — but the
publisher's wait predicate remains `true` on that store for every
remembered timestamp, so the publisher stays blocked and "no objects
visible" is not observable through the publisher. -/
theorem locate_objects_empty_frame_notify (solver : PnpSolver)
    (st : LocState) (t : ℤ) (dets : List Detection) (store : Store)
    (last_timestamp : ℤ)
    (hclass : classify st dets = .ok []) :
    locate_objects solver st t dets store = (.ok (), st, ⟨t, []⟩, true) ∧
    waitPred last_timestamp ⟨t, []⟩ = true := by
  constructor
  · simp only [locate_objects, hclass, populate]
  · simp [waitPred]

/-- Witness for the amended C5: an empty detection list. -/
theorem locate_objects_empty_frame_notify_witness :
    (classify Fix.stAB [] = .ok []) ∧
    (locate_objects Fix.okSolver Fix.stAB 7 [] ⟨0, []⟩ =
      (.ok (), Fix.stAB, ⟨7, []⟩, true) ∧
     waitPred 3 ⟨7, []⟩ = true) :=
  ⟨rfl, locate_objects_empty_frame_notify Fix.okSolver Fix.stAB 7 []
    ⟨0, []⟩ 3 rfl⟩

/-! ## C4 — what publishers can observe -/

/-- A solver that succeeds on the detection whose corner pixels are all
zero (object `screen`'s marker) and fails on any other (object `wand`'s
marker, whose fixture corners are at pixel 5). -/
noncomputable def abSolver : PnpSolver :=
  fun _ imgPts _ _ _ _ _ _ =>
    if imgPts.headD 0 = 0 then .ok (Vec3.zero, Vec3.zero)
    else .error .solveFail

/-- The pose the fixture solves produce for object `screen`. -/
noncomputable def poseA : Iso3 :=
  (Iso3.ofVecs Vec3.zero Vec3.zero).comp (isoPart Fix.loc1).inv

/-- Cycle A: only `screen`'s marker is visible and the solve succeeds. -/
theorem cycleA_eval :
    locate_objects Fix.okSolver Fix.stAB 1 [Fix.detA] ⟨0, []⟩ =
      (.ok (), Fix.stAB, ⟨1, [("screen", poseA)]⟩, true) := rfl

/-- Cycle B: both markers are visible; `screen` solves, `wand` fails, so
the cycle aborts after having already reset the store's timestamp and
repopulated only `screen` — the lock is then released with this torn
state and no notification. -/
theorem cycleB_eval :
    locate_objects abSolver Fix.stAB 2 [Fix.detA, Fix.detB]
        ⟨1, [("screen", poseA)]⟩ =
      (.error .solveFail, Fix.stAB, ⟨2, [("screen", poseA)]⟩, false) := by
  have hcA : (imagePointsOf Fix.detA).headD 0 = (0 : ℝ) := rfl
  have hcB : (imagePointsOf Fix.detB).headD 0 = (5 : ℝ) := rfl
  have hA : locate_tag abSolver Fix.stAB.camera Fix.detA Fix.loc1.scaling =
      .ok (Iso3.ofVecs Vec3.zero Vec3.zero) := by
    unfold locate_tag abSolver
    rw [hcA, if_pos rfl]
  have hB : locate_tag abSolver Fix.stAB.camera Fix.detB Fix.loc2.scaling =
      .error .solveFail := by
    unfold locate_tag abSolver
    rw [hcB, if_neg (by norm_num)]
  have hsA : locate_single_object abSolver Fix.stAB [(Fix.detA, Fix.loc1)]
      (some 0) 2 = (.ok poseA, Fix.stAB) := by
    have hseed : seedLookup Fix.stAB (some 0) 2 =
        .ok (Vec3.zero, Vec3.zero, false) := rfl
    simp only [locate_single_object, hseed, hA, poseA]
  have hsB : locate_single_object abSolver Fix.stAB [(Fix.detB, Fix.loc2)]
      (some 1) 2 = (.error .solveFail, Fix.stAB) := by
    have hseed : seedLookup Fix.stAB (some 1) 2 =
        .ok (Vec3.zero, Vec3.zero, false) := rfl
    simp only [locate_single_object, hseed, hB]
  have hclass : classify Fix.stAB [Fix.detA, Fix.detB] =
      .ok [(0, [(Fix.detA, Fix.loc1)]), (1, [(Fix.detB, Fix.loc2)])] := rfl
  have hpop : populate abSolver 2
      [(0, [(Fix.detA, Fix.loc1)]), (1, [(Fix.detB, Fix.loc2)])]
      Fix.stAB ⟨2, []⟩ =
      (.error .solveFail, Fix.stAB, ⟨2, [("screen", poseA)]⟩) := by
    simp only [populate, hsA, hsB]
    rfl
  simp only [locate_objects, hclass, hpop]

/-- The system state after cycle A. -/
noncomputable def sysOne : Sys :=
  ⟨Fix.stAB, ⟨1, [("screen", poseA)]⟩, true, 0,
   some ⟨1, [("screen", poseA)]⟩, []⟩

/-- The system state after cycle A then the failed cycle B. -/
noncomputable def sysTwo : Sys :=
  ⟨Fix.stAB, ⟨2, [("screen", poseA)]⟩, true, 0,
   some ⟨1, [("screen", poseA)]⟩, []⟩

theorem sysOne_eval :
    applyLocate Fix.okSolver 1 [Fix.detA] (initSys Fix.stAB 0 0) =
      sysOne := by
  simp only [applyLocate, initSys, cycleA_eval, sysOne]
  rfl

theorem sysTwo_eval :
    applyLocate abSolver 2 [Fix.detA, Fix.detB] sysOne = sysTwo := by
  simp only [applyLocate, sysOne, cycleB_eval, sysTwo]
  rfl

/-- **C4 counterexample.** A reachable interleaving hands a publisher a
store state that no completed locate cycle wrote: cycle A completes (the
publisher is woken), cycle B fails mid-repopulate and releases the lock
leaving fresh timestamp 2 next to a partially repopulated map, and the
already-woken publisher then acquires the lock, passes its wait predicate
and publishes that torn state, which differs from the most recent
completed cycle's write (timestamp 1). -/
theorem locate_publish_torn_observation :
    ∃ s : Sys, Relation.ReflTransGen Step (initSys Fix.stAB 0 0) s ∧
      ∃ p ∈ s.published, some p.1 ≠ p.2 := by
  refine ⟨observeSys (applyLocate abSolver 2 [Fix.detA, Fix.detB]
    (applyLocate Fix.okSolver 1 [Fix.detA] (initSys Fix.stAB 0 0))), ?_, ?_⟩
  · refine Relation.ReflTransGen.tail (Relation.ReflTransGen.tail
      (Relation.ReflTransGen.single
        (Step.locate Fix.okSolver 1 [Fix.detA] _))
      (Step.locate abSolver 2 [Fix.detA, Fix.detB] _)) ?_
    refine Step.observe _ ?_ ?_
    · rw [sysOne_eval, sysTwo_eval]; rfl
    · rw [sysOne_eval, sysTwo_eval]; rfl
  · rw [sysOne_eval, sysTwo_eval]
    refine ⟨(⟨2, [("screen", poseA)]⟩, some ⟨1, [("screen", poseA)]⟩),
      List.mem_singleton.2 rfl, ?_⟩
    intro h
    injection h with h'
    injection h' with ht hm
    exact absurd ht (by norm_num)

/-- The invariant maintained by runs whose locate cycles all succeed. -/
def SysInv (s : Sys) : Prop :=
  (∀ p ∈ s.published, some p.1 = p.2) ∧
  (s.lastCompleted = none → s.store.name_map = []) ∧
  (∀ w, s.lastCompleted = some w → s.store = w)

theorem stepOk_inv {s s' : Sys} (h : StepOk s s') (hi : SysInv s) :
    SysInv s' := by
  cases h with
  | locate solver t dets s hok =>
    refine ⟨hi.1, ?_, ?_⟩
    · intro hnone
      simp only [applyLocate, hok, if_pos] at hnone
      exact Option.noConfusion hnone
    · intro w hw
      simp only [applyLocate, hok, if_pos, Option.some.injEq] at hw
      simp only [applyLocate, hw]
  | observe s h1 h2 =>
    have hne : s.store.name_map ≠ [] := by
      intro hnil
      simp [waitPred, hnil] at h2
    have hsome : ∃ w, s.lastCompleted = some w := by
      cases hlc : s.lastCompleted with
      | none => exact absurd (hi.2.1 hlc) hne
      | some w => exact ⟨w, rfl⟩
    obtain ⟨w, hw⟩ := hsome
    refine ⟨?_, ?_, ?_⟩
    · intro p hp
      simp only [observeSys, List.mem_cons] at hp
      rcases hp with rfl | hp
      · rw [hw, hi.2.2 w hw]
      · exact hi.1 p hp
    · intro hnone
      simp only [observeSys] at hnone
      rw [hnone] at hw
      exact Option.noConfusion hw
    · intro w' hw'
      simp only [observeSys] at hw'
      exact hi.2.2 w' hw'

/-- **C4 amended.** In every run in which all locate cycles complete
successfully, each publisher observation is exactly the store state
written by the most recent completed locate cycle (the lock is held for
the full clear-and-repopulate, so no torn state is ever visible).  The
unamended claim fails only on runs containing a failed cycle. -/
theorem published_matches_completed_cycles (L : LocState) (t0 tp : ℤ)
    (s : Sys)
    (hreach : Relation.ReflTransGen StepOk (initSys L t0 tp) s) :
    ∀ p ∈ s.published, some p.1 = p.2 := by
  have hinv : SysInv s := by
    induction hreach with
    | refl =>
      refine ⟨?_, ?_, ?_⟩
      · intro p hp; exact absurd hp (List.not_mem_nil _)
      · intro; rfl
      · intro w hw; exact Option.noConfusion hw
    | tail hsteps hstep ih => exact stepOk_inv hstep ih
  exact hinv.1

/-- Witness for the amended C4: a run with one successful locate cycle
(`screen` visible at time 1) followed by a publisher observation.  The
run's `published` list is the single pair of the observed store and the
ghost record of cycle A's write, so the theorem's conclusion checks a
real, non-empty observation: the publisher saw exactly the completed
cycle's store. -/
theorem published_matches_completed_cycles_witness :
    Relation.ReflTransGen StepOk (initSys Fix.stAB 0 0)
        (observeSys (applyLocate Fix.okSolver 1 [Fix.detA]
          (initSys Fix.stAB 0 0))) ∧
    (observeSys (applyLocate Fix.okSolver 1 [Fix.detA]
        (initSys Fix.stAB 0 0))).published =
      [(⟨1, [("screen", poseA)]⟩, some ⟨1, [("screen", poseA)]⟩)] ∧
    ∀ p ∈ (observeSys (applyLocate Fix.okSolver 1 [Fix.detA]
        (initSys Fix.stAB 0 0))).published, some p.1 = p.2 := by
  have hstep1 : StepOk (initSys Fix.stAB 0 0)
      (applyLocate Fix.okSolver 1 [Fix.detA] (initSys Fix.stAB 0 0)) :=
    StepOk.locate Fix.okSolver 1 [Fix.detA] _ rfl
  have hstep2 : StepOk
      (applyLocate Fix.okSolver 1 [Fix.detA] (initSys Fix.stAB 0 0))
      (observeSys (applyLocate Fix.okSolver 1 [Fix.detA]
        (initSys Fix.stAB 0 0))) := by
    refine StepOk.observe _ ?_ ?_
    · rw [sysOne_eval]
      rfl
    · rw [sysOne_eval]
      rfl
  have hreach : Relation.ReflTransGen StepOk (initSys Fix.stAB 0 0)
      (observeSys (applyLocate Fix.okSolver 1 [Fix.detA]
        (initSys Fix.stAB 0 0))) :=
    Relation.ReflTransGen.tail (Relation.ReflTransGen.single hstep1) hstep2
  refine ⟨hreach, ?_,
    published_matches_completed_cycles Fix.stAB 0 0 _ hreach⟩
  rw [sysOne_eval]
  rfl

/-! ## The projection Jacobian (`calculate_projection_jacobian`, lines
340–371)

The code fills an `8n × 6` zero matrix by writing, for tag `i` and corner
`j`, a 2×3 translation block at `(u_index, 0)` and a 2×3 rotation block at
`(u_index, 3)`, `u_index = (i*4 + j)*2`.  The embedding builds the same
matrix by the same sequence of block writes over a `ℕ → ℕ → ℝ` function
initialized to zero, then restricts to `Fin (8n) × Fin 6`. -/

/-- `fixed_view_mut::<2, 3>(r0, c0).copy_from(&B)`: overwrite the 2×3
window at `(r0, c0)`. -/
def writeBlock (f : ℕ → ℕ → ℝ) (r0 c0 : ℕ) (B : Mat2x3) : ℕ → ℕ → ℝ :=
  fun r c =>
    if r0 ≤ r ∧ r < r0 + 2 ∧ c0 ≤ c ∧ c < c0 + 3 then
      B.entry (r - r0) (c - c0)
    else f r c

/-- The loop body's `translation_jacobian = d_mat * camera_mat` for one
tag/corner pair, with
`a = camera_mat * location.transform_point(local_position)` and `d_mat`
the perspective-division block (lines 352–362). -/
noncomputable def translationBlock (camera_mat : Mat3) (location : Iso3)
    (tag_loc : TagLocation) (j : ℕ) : Mat2x3 :=
  let local_position := tag_loc.transform_point (TAG_CORNERS j)
  let a := camera_mat.mulVec (location.transform_point local_position)
  let d_mat : Mat2x3 :=
    ⟨1 / a.z, 0, -a.x / (a.z * a.z), 0, 1 / a.z, -a.y / (a.z * a.z)⟩
  d_mat.mulMat3 camera_mat

/-- The loop body's `translation_jacobian * local_rotation_jacobian`
(lines 365–367): note that the code evaluates `rotation_jacobian` at
`rotation = tag_loc.0.isometry.rotation` — the *marker-to-object*
transform's rotation — applied to the marker-transformed corner. -/
noncomputable def rotationBlock (camera_mat : Mat3) (location : Iso3)
    (tag_loc : TagLocation) (j : ℕ) : Mat2x3 :=
  (translationBlock camera_mat location tag_loc j).mulMat3
    (rotation_jacobian tag_loc.rv (tag_loc.transform_point (TAG_CORNERS j)))

/-- One inner-loop iteration: write the translation block then the
rotation block for corner `j` of tag `i`. -/
noncomputable def cornerWrite (camera_mat : Mat3) (location : Iso3) (i : ℕ)
    (tag_loc : TagLocation) (j : ℕ) (f : ℕ → ℕ → ℝ) : ℕ → ℕ → ℝ :=
  let u_index := (i * 4 + j) * 2
  writeBlock
    (writeBlock f u_index 0 (translationBlock camera_mat location tag_loc j))
    u_index 3 (rotationBlock camera_mat location tag_loc j)

/-- The four corner writes of one tag, in loop order. -/
noncomputable def tagWrite (camera_mat : Mat3) (location : Iso3) (i : ℕ)
    (tag_loc : TagLocation) (f : ℕ → ℕ → ℝ) : ℕ → ℕ → ℝ :=
  cornerWrite camera_mat location i tag_loc 3
    (cornerWrite camera_mat location i tag_loc 2
      (cornerWrite camera_mat location i tag_loc 1
        (cornerWrite camera_mat location i tag_loc 0 f)))

/-- The outer loop over `detections.enumerate()`. -/
noncomputable def jacLoop (camera_mat : Mat3) (location : Iso3) :
    ℕ → List TagLocation → (ℕ → ℕ → ℝ) → ℕ → ℕ → ℝ
  | _, [], f => f
  | i, tl :: rest, f =>
    jacLoop camera_mat location (i + 1) rest
      (tagWrite camera_mat location i tl f)

/-- `TaggedObjectLocator::calculate_projection_jacobian`: the `8n × 6`
matrix produced by the block-writing loops over a zero matrix.  (The
`Result` wrapper of the code never carries an error and is omitted.) -/
noncomputable def calculate_projection_jacobian (camera_mat : Mat3)
    (detections : List TagLocation) (location : Iso3) :
    Matrix (Fin (8 * detections.length)) (Fin 6) ℝ :=
  Matrix.of fun r c =>
    jacLoop camera_mat location 0 detections (fun _ _ => 0) r.val c.val

/-- The value the loop body leaves at row offset `uv` of corner `j`'s row
pair, column `c`. -/
noncomputable def cornerValue (camera_mat : Mat3) (location : Iso3)
    (tag_loc : TagLocation) (j uv c : ℕ) : ℝ :=
  if c < 3 then (translationBlock camera_mat location tag_loc j).entry uv c
  else (rotationBlock camera_mat location tag_loc j).entry uv (c - 3)

theorem writeBlock_hit {f : ℕ → ℕ → ℝ} {r0 c0 : ℕ} {B : Mat2x3} {r c : ℕ}
    (h : r0 ≤ r ∧ r < r0 + 2 ∧ c0 ≤ c ∧ c < c0 + 3) :
    writeBlock f r0 c0 B r c = B.entry (r - r0) (c - c0) := if_pos h

theorem writeBlock_miss {f : ℕ → ℕ → ℝ} {r0 c0 : ℕ} {B : Mat2x3} {r c : ℕ}
    (h : ¬(r0 ≤ r ∧ r < r0 + 2 ∧ c0 ≤ c ∧ c < c0 + 3)) :
    writeBlock f r0 c0 B r c = f r c := if_neg h

theorem cornerWrite_miss {camera_mat : Mat3} {location : Iso3} {i : ℕ}
    {tag_loc : TagLocation} {j : ℕ} {f : ℕ → ℕ → ℝ} {r c : ℕ}
    (h : r < (i * 4 + j) * 2 ∨ (i * 4 + j) * 2 + 2 ≤ r) :
    cornerWrite camera_mat location i tag_loc j f r c = f r c := by
  unfold cornerWrite
  rw [writeBlock_miss (by omega), writeBlock_miss (by omega)]

theorem cornerWrite_hit {camera_mat : Mat3} {location : Iso3} {i : ℕ}
    {tag_loc : TagLocation} {j : ℕ} {f : ℕ → ℕ → ℝ} {r c : ℕ}
    (hr1 : (i * 4 + j) * 2 ≤ r) (hr2 : r < (i * 4 + j) * 2 + 2)
    (hc : c < 6) :
    cornerWrite camera_mat location i tag_loc j f r c =
      cornerValue camera_mat location tag_loc j (r - (i * 4 + j) * 2) c := by
  unfold cornerWrite cornerValue
  by_cases hc3 : c < 3
  · rw [writeBlock_miss (by omega), writeBlock_hit (by omega), if_pos hc3,
      Nat.sub_zero]
  · rw [writeBlock_hit (by omega), if_neg hc3]

theorem tagWrite_miss {camera_mat : Mat3} {location : Iso3} {i : ℕ}
    {tag_loc : TagLocation} {f : ℕ → ℕ → ℝ} {r c : ℕ}
    (h : r < i * 8 ∨ i * 8 + 8 ≤ r) :
    tagWrite camera_mat location i tag_loc f r c = f r c := by
  unfold tagWrite
  rw [cornerWrite_miss (by omega), cornerWrite_miss (by omega),
    cornerWrite_miss (by omega), cornerWrite_miss (by omega)]

theorem tagWrite_hit {camera_mat : Mat3} {location : Iso3} {i : ℕ}
    {tag_loc : TagLocation} {f : ℕ → ℕ → ℝ} {j uv c : ℕ}
    (hj : j < 4) (huv : uv < 2) (hc : c < 6) :
    tagWrite camera_mat location i tag_loc f (i * 8 + j * 2 + uv) c =
      cornerValue camera_mat location tag_loc j uv c := by
  unfold tagWrite
  interval_cases j
  · rw [cornerWrite_miss (by omega), cornerWrite_miss (by omega),
      cornerWrite_miss (by omega),
      cornerWrite_hit (by omega) (by omega) hc]
    have h : i * 8 + 0 * 2 + uv - (i * 4 + 0) * 2 = uv := by omega
    rw [h]
  · rw [cornerWrite_miss (by omega), cornerWrite_miss (by omega),
      cornerWrite_hit (by omega) (by omega) hc]
    have h : i * 8 + 1 * 2 + uv - (i * 4 + 1) * 2 = uv := by omega
    rw [h]
  · rw [cornerWrite_miss (by omega),
      cornerWrite_hit (by omega) (by omega) hc]
    have h : i * 8 + 2 * 2 + uv - (i * 4 + 2) * 2 = uv := by omega
    rw [h]
  · rw [cornerWrite_hit (by omega) (by omega) hc]
    have h : i * 8 + 3 * 2 + uv - (i * 4 + 3) * 2 = uv := by omega
    rw [h]

theorem jacLoop_miss (camera_mat : Mat3) (location : Iso3) :
    ∀ (dets : List TagLocation) (i0 : ℕ) (f : ℕ → ℕ → ℝ) (r c : ℕ),
      (r < i0 * 8 ∨ (i0 + dets.length) * 8 ≤ r) →
      jacLoop camera_mat location i0 dets f r c = f r c := by
  intro dets
  induction dets with
  | nil => intro i0 f r c _; rfl
  | cons tl rest ih =>
    intro i0 f r c h
    show jacLoop camera_mat location (i0 + 1) rest
      (tagWrite camera_mat location i0 tl f) r c = f r c
    rw [ih (i0 + 1) _ r c (by simp only [List.length_cons] at h; omega)]
    exact tagWrite_miss (by simp only [List.length_cons] at h; omega)

theorem jacLoop_hit (camera_mat : Mat3) (location : Iso3) :
    ∀ (dets : List TagLocation) (i0 : ℕ) (f : ℕ → ℕ → ℝ) (i : ℕ)
      (hi : i < dets.length) (j uv c : ℕ),
      j < 4 → uv < 2 → c < 6 →
      jacLoop camera_mat location i0 dets f ((i0 + i) * 8 + j * 2 + uv) c =
        cornerValue camera_mat location (dets.get ⟨i, hi⟩) j uv c := by
  intro dets
  induction dets with
  | nil => intro i0 f i hi; exact absurd hi (by simp)
  | cons tl rest ih =>
    intro i0 f i hi j uv c hj huv hc
    show jacLoop camera_mat location (i0 + 1) rest
      (tagWrite camera_mat location i0 tl f) _ c = _
    cases i with
    | zero =>
      rw [jacLoop_miss camera_mat location rest (i0 + 1) _ _ c
        (Or.inl (by omega))]
      have hrow : (i0 + 0) * 8 + j * 2 + uv = i0 * 8 + j * 2 + uv := by omega
      rw [hrow]
      exact tagWrite_hit hj huv hc
    | succ k =>
      have hrow : (i0 + (k + 1)) * 8 + j * 2 + uv =
          (i0 + 1 + k) * 8 + j * 2 + uv := by ring
      rw [hrow]
      exact ih (i0 + 1) _ k (Nat.lt_of_succ_lt_succ hi) j uv c hj huv hc

/-! ## C2 — the Jacobian's blocks -/

/-- **C2 amended.**  `calculate_projection_jacobian` returns the
`8n × 6` matrix in which, for corner `j` of tag `i` (rows
`(i*4+j)*2` and `(i*4+j)*2 + 1`), the 2×3 translation block (columns
0–2) is `[[1/a.z, 0, -a.x/a.z²], [0, 1/a.z, -a.y/a.z²]] * K` with
`a = K * location(tagTransform(corner))`, and the 2×3 rotation block
(columns 3–5) is the translation block composed with
`rotation_jacobian` evaluated at the *marker-to-object transform's*
rotation vector (not the object pose's rotation, as the unamended claim
says) applied to the marker-transformed corner position. -/
theorem calculate_projection_jacobian_blocks (camera_mat : Mat3)
    (detections : List TagLocation) (location : Iso3) (i j uv c : ℕ)
    (hi : i < detections.length) (hj : j < 4) (huv : uv < 2) (hc : c < 6)
    (hr : (i * 4 + j) * 2 + uv < 8 * detections.length) :
    calculate_projection_jacobian camera_mat detections location
        ⟨(i * 4 + j) * 2 + uv, hr⟩ ⟨c, hc⟩ =
      (let tl := detections.get ⟨i, hi⟩
       let local_position := tl.transform_point (TAG_CORNERS j)
       let a := camera_mat.mulVec (location.transform_point local_position)
       let d_mat : Mat2x3 :=
         ⟨1 / a.z, 0, -a.x / (a.z * a.z), 0, 1 / a.z, -a.y / (a.z * a.z)⟩
       let translation_jacobian := d_mat.mulMat3 camera_mat
       if c < 3 then translation_jacobian.entry uv c
       else (translation_jacobian.mulMat3
         (rotation_jacobian tl.rv local_position)).entry uv (c - 3)) := by
  show jacLoop camera_mat location 0 detections (fun _ _ => 0)
      ((i * 4 + j) * 2 + uv) c = _
  have hrow : (i * 4 + j) * 2 + uv = (0 + i) * 8 + j * 2 + uv := by ring
  rw [hrow, jacLoop_hit camera_mat location detections 0 _ i hi j uv c hj
    huv hc]
  rfl

/-- Witness for the amended C2: one marker with no rotation, object pose a
pure translation, entry `(0, 0)`. -/
theorem calculate_projection_jacobian_blocks_witness :
    ((0 : ℕ) < ([Fix.loc1] : List TagLocation).length ∧ (0 : ℕ) < 4 ∧
      (0 : ℕ) < 2 ∧ (0 : ℕ) < 6 ∧
      (0 * 4 + 0) * 2 + 0 < 8 * ([Fix.loc1] : List TagLocation).length) ∧
    calculate_projection_jacobian Mat3.id [Fix.loc1]
        ⟨Mat3.id, ⟨0, 0, 5⟩⟩ ⟨(0 * 4 + 0) * 2 + 0, by norm_num⟩
        ⟨0, by norm_num⟩ =
      (let tl := ([Fix.loc1] : List TagLocation).get ⟨0, by norm_num⟩
       let local_position := tl.transform_point (TAG_CORNERS 0)
       let a := Mat3.id.mulVec
         ((⟨Mat3.id, ⟨0, 0, 5⟩⟩ : Iso3).transform_point local_position)
       let d_mat : Mat2x3 :=
         ⟨1 / a.z, 0, -a.x / (a.z * a.z), 0, 1 / a.z, -a.y / (a.z * a.z)⟩
       let translation_jacobian := d_mat.mulMat3 Mat3.id
       if (0 : ℕ) < 3 then translation_jacobian.entry 0 0
       else (translation_jacobian.mulMat3
         (rotation_jacobian tl.rv local_position)).entry 0 (0 - 3)) :=
  ⟨⟨by norm_num, by norm_num, by norm_num, by norm_num, by norm_num⟩,
   calculate_projection_jacobian_blocks Mat3.id [Fix.loc1]
     ⟨Mat3.id, ⟨0, 0, 5⟩⟩ 0 0 0 0 (by norm_num) (by norm_num) (by norm_num)
     (by norm_num) (by norm_num)⟩

/-! ### C2 counterexample: the rotation block uses the tag's rotation -/

/-- A marker rotated by 90° about `z` within its object (side length 2,
scaling 1), no translation. -/
noncomputable def tlC2 : TagLocation :=
  TagLocation.new 2 ⟨0, 0, Real.pi / 2⟩ ⟨0, 0, 0⟩

/-- An object pose with identity rotation and translation `(0,0,5)`. -/
noncomputable def locC2 : Iso3 := ⟨rodrigues Vec3.zero, ⟨0, 0, 5⟩⟩

/-- The rotation-sensitivity block as the claim/spec words it: the
translation block composed with the SO(3) right-Jacobian expression
(`rotation_jacobian`) evaluated at the *object pose's* rotation tangent
vector `wpose`, applied to the marker-transformed corner.  This
spec-side definition exists only for comparison with the code's
`rotationBlock`. -/
noncomputable def spec_rotation_block (camera_mat : Mat3)
    (pose_tv wpose : Vec3) (tl : TagLocation) (j : ℕ) : Mat2x3 :=
  (translationBlock camera_mat ⟨rodrigues wpose, pose_tv⟩ tl j).mulMat3
    (rotation_jacobian wpose (tl.transform_point (TAG_CORNERS j)))

theorem angleOf_quarter_turn :
    angleOf ⟨0, 0, Real.pi / 2⟩ = Real.pi / 2 := by
  show Real.sqrt ((0 : ℝ) ^ 2 + (0 : ℝ) ^ 2 + (Real.pi / 2) ^ 2) =
    Real.pi / 2
  rw [show (0 : ℝ) ^ 2 + (0 : ℝ) ^ 2 + (Real.pi / 2) ^ 2 =
    (Real.pi / 2) ^ 2 by ring]
  exact Real.sqrt_sq (by positivity)

theorem angleOf_zero : angleOf Vec3.zero = 0 := by
  show Real.sqrt ((0 : ℝ) ^ 2 + (0 : ℝ) ^ 2 + (0 : ℝ) ^ 2) = 0
  norm_num

theorem rodrigues_zero : rodrigues Vec3.zero = Mat3.id := by
  unfold rodrigues
  rw [angleOf_zero]
  simp

set_option maxHeartbeats 1000000 in
theorem rodrigues_quarter_turn :
    rodrigues ⟨0, 0, Real.pi / 2⟩ = ⟨0, -1, 0, 1, 0, 0, 0, 0, 1⟩ := by
  have hpi : Real.pi ≠ 0 := Real.pi_ne_zero
  simp only [rodrigues]
  rw [angleOf_quarter_turn,
    if_neg (show ¬(Real.pi / 2 = 0) from by positivity),
    Real.sin_pi_div_two, Real.cos_pi_div_two]
  unfold hat Mat3.id Mat3.smul Mat3.mul Mat3.add
  simp only [Mat3.mk.injEq]
  refine ⟨?_, ?_, ?_, ?_, ?_, ?_, ?_, ?_, ?_⟩ <;>
    · field_simp
      try ring

theorem tlC2_corner0 : tlC2.transform_point (TAG_CORNERS 0) = ⟨-1, -1, 0⟩ := by
  show (((rodrigues tlC2.rv).mulVec
    (Vec3.smul tlC2.scaling (TAG_CORNERS 0)))).add tlC2.tv = _
  rw [show tlC2.rv = ⟨0, 0, Real.pi / 2⟩ from rfl, rodrigues_quarter_turn]
  show (((⟨0, -1, 0, 1, 0, 0, 0, 0, 1⟩ : Mat3).mulVec
    (Vec3.smul (2 * 0.5) ⟨-1, 1, 0⟩))).add ⟨0, 0, 0⟩ = _
  unfold Vec3.smul Mat3.mulVec Vec3.add
  simp only [Vec3.mk.injEq]
  norm_num

set_option maxHeartbeats 1000000 in
theorem rotation_jacobian_quarter_turn :
    rotation_jacobian ⟨0, 0, Real.pi / 2⟩ ⟨-1, -1, 0⟩ =
      ⟨0, 0, -1, 0, 0, -1, 0, 4 / Real.pi, 0⟩ := by
  have hpi : Real.pi ≠ 0 := Real.pi_ne_zero
  have hbig : ¬(Real.pi / 2 < 1e-10) := by
    rw [not_lt]
    nlinarith [Real.pi_gt_three]
  have hRv : (rodrigues ⟨0, 0, Real.pi / 2⟩).mulVec ⟨-1, -1, 0⟩ =
      ⟨1, -1, 0⟩ := by
    rw [rodrigues_quarter_turn]
    unfold Mat3.mulVec
    simp only [Vec3.mk.injEq]
    norm_num
  simp only [rotation_jacobian]
  rw [angleOf_quarter_turn, if_neg hbig, hRv,
    Real.sin_pi_div_two, Real.cos_pi_div_two]
  unfold hat Mat3.id Mat3.smul Mat3.mul Mat3.sub Mat3.add
  simp only [Mat3.mk.injEq]
  refine ⟨?_, ?_, ?_, ?_, ?_, ?_, ?_, ?_, ?_⟩ <;>
    · field_simp
      try ring

theorem rotation_jacobian_zero_rotation :
    rotation_jacobian Vec3.zero ⟨-1, -1, 0⟩ =
      ⟨0, 0, -1, 0, 0, 1, 1, -1, 0⟩ := by
  have hsmall : angleOf Vec3.zero < 1e-10 := by
    rw [angleOf_zero]; norm_num
  have hRv : (rodrigues Vec3.zero).mulVec ⟨-1, -1, 0⟩ = ⟨-1, -1, 0⟩ := by
    rw [rodrigues_zero]
    unfold Mat3.mulVec Mat3.id
    simp only [Vec3.mk.injEq]
    norm_num
  simp only [rotation_jacobian]
  rw [if_pos hsmall, hRv]
  unfold hat Mat3.id Mat3.mul
  simp only [Mat3.mk.injEq]
  norm_num

theorem translationBlock_C2 :
    translationBlock Mat3.id locC2 tlC2 0 =
      ⟨1 / 5, 0, 1 / 25, 0, 1 / 5, 1 / 25⟩ := by
  unfold translationBlock
  rw [tlC2_corner0]
  show (⟨_, _, _, _, _, _⟩ : Mat2x3).mulMat3 Mat3.id = _
  rw [show locC2.transform_point ⟨-1, -1, 0⟩ = ⟨-1, -1, 5⟩ from by
    show (((rodrigues Vec3.zero).mulVec ⟨-1, -1, 0⟩)).add ⟨0, 0, 5⟩ = _
    rw [rodrigues_zero]
    unfold Mat3.mulVec Mat3.id Vec3.add
    simp only [Vec3.mk.injEq]
    norm_num]
  unfold Mat3.mulVec Mat3.id Mat2x3.mulMat3
  simp only [Mat2x3.mk.injEq]
  norm_num

/-- **C2 counterexample.**  With a marker rotated 90° about `z` inside its
object and an object pose that is a pure translation (rotation angle 0),
the Jacobian entry at row 0, column 3 is `0`, while the block the claim
prescribes — the right-Jacobian taken with respect to the *object pose's*
rotation tangent (identity map at angle zero) — has `1/25` there: the code
evaluates `rotation_jacobian` at the marker-to-object rotation, not the
pose's. -/
theorem projection_jacobian_rotation_mismatch :
    calculate_projection_jacobian Mat3.id [tlC2] locC2
        ⟨0, by norm_num⟩ ⟨3, by norm_num⟩ = 0 ∧
    (spec_rotation_block Mat3.id ⟨0, 0, 5⟩ Vec3.zero tlC2 0).entry 0 0 =
      1 / 25 ∧
    (0 : ℝ) ≠ 1 / 25 := by
  refine ⟨?_, ?_, by norm_num⟩
  · have hhit := jacLoop_hit Mat3.id locC2 [tlC2] 0 (fun _ _ => 0) 0
      (by norm_num) 0 0 3 (by norm_num) (by norm_num) (by norm_num)
    have hrow : ((0 : ℕ) + 0) * 8 + 0 * 2 + 0 = 0 := by norm_num
    rw [hrow] at hhit
    show jacLoop Mat3.id locC2 0 [tlC2] (fun _ _ => 0) 0 3 = 0
    rw [hhit]
    show cornerValue Mat3.id locC2 tlC2 0 0 3 = 0
    unfold cornerValue
    rw [if_neg (by norm_num)]
    show (rotationBlock Mat3.id locC2 tlC2 0).entry 0 (3 - 3) = 0
    unfold rotationBlock
    rw [show tlC2.rv = ⟨0, 0, Real.pi / 2⟩ from rfl, tlC2_corner0,
      rotation_jacobian_quarter_turn, translationBlock_C2]
    unfold Mat2x3.mulMat3 Mat2x3.entry
    norm_num
  · unfold spec_rotation_block
    rw [tlC2_corner0, rotation_jacobian_zero_rotation,
      show (⟨rodrigues Vec3.zero, ⟨0, 0, 5⟩⟩ : Iso3) = locC2 from rfl,
      translationBlock_C2]
    unfold Mat2x3.mulMat3 Mat2x3.entry
    norm_num

/-! ## Covariance estimation (`calculate_covariance`, lines 382–400) -/

/-- The measurement-noise matrix `Y`: an `n × n` zero matrix whose
diagonal `set_partial_diagonal` fills with the cycled sequence
`vx, vy, vx, vy, …`. -/
noncomputable def noiseDiagonal (n : ℕ) (vx vy : ℝ) :
    Matrix (Fin n) (Fin n) ℝ :=
  Matrix.diagonal fun k => if k.val % 2 = 0 then vx else vy

open Classical in
/-- `TaggedObjectLocator::calculate_covariance`: the generalized
least-squares sandwich `b * a * b` with `a = Jᵀ Y J` and
`b = (Jᵀ J)⁻¹`; `try_inverse` fails (and the function errors) exactly
when `Jᵀ J` is not invertible. -/
noncomputable def calculate_covariance (camera_mat : Mat3)
    (detections : List TagLocation) (location : Iso3)
    (detection_variance : ℝ × ℝ) :
    Except RtErr (Matrix (Fin 6) (Fin 6) ℝ) :=
  let jacobian := calculate_projection_jacobian camera_mat detections location
  let y := noiseDiagonal (8 * detections.length) detection_variance.1
    detection_variance.2
  let a := jacobian.transpose * y * jacobian
  if IsUnit (jacobian.transpose * jacobian).det then
    .ok ((jacobian.transpose * jacobian)⁻¹ * a *
      (jacobian.transpose * jacobian)⁻¹)
  else .error .singular

/-- Real matrices: conjugate transpose is plain transpose. -/
theorem conjT_eq_transpose {m n : Type} [Fintype m] [Fintype n]
    (M : Matrix m n ℝ) : M.conjTranspose = M.transpose := by
  ext i j
  simp [Matrix.conjTranspose_apply]

/-! ## C8 — the covariance sandwich is symmetric and PSD -/

/-- **C8.**  With nonnegative per-axis pixel variances: every successful
`calculate_covariance` result equals `(JᵀJ)⁻¹ (JᵀYJ) (JᵀJ)⁻¹` with `Y` the
alternating diagonal noise matrix, is symmetric and positive-semidefinite
(hence has no negative eigenvalues); and the function returns the
recoverable `singular` error exactly when `JᵀJ` is not invertible. -/
theorem calculate_covariance_spec (camera_mat : Mat3)
    (detections : List TagLocation) (location : Iso3) (vx vy : ℝ)
    (hx : 0 ≤ vx) (hy : 0 ≤ vy) :
    (∀ C, calculate_covariance camera_mat detections location (vx, vy) =
        .ok C →
      (let jacobian :=
        calculate_projection_jacobian camera_mat detections location
       let y := noiseDiagonal (8 * detections.length) vx vy
       C = (jacobian.transpose * jacobian)⁻¹ *
            (jacobian.transpose * y * jacobian) *
            (jacobian.transpose * jacobian)⁻¹) ∧
      C.transpose = C ∧ C.PosSemidef ∧
      ∃ hh : C.IsHermitian, ∀ i, 0 ≤ hh.eigenvalues i) ∧
    ((calculate_covariance camera_mat detections location (vx, vy)).isOk =
        false ↔
      ¬ IsUnit ((calculate_projection_jacobian camera_mat detections
        location).transpose *
        calculate_projection_jacobian camera_mat detections location).det) := by
  classical
  set J := calculate_projection_jacobian camera_mat detections location
    with hJ
  set y := noiseDiagonal (8 * detections.length) vx vy with hy'
  by_cases hdet : IsUnit (J.transpose * J).det
  · constructor
    · intro C hC
      have hCval : C = (J.transpose * J)⁻¹ * (J.transpose * y * J) *
          (J.transpose * J)⁻¹ := by
        simp only [calculate_covariance, ← hJ, ← hy', if_pos hdet] at hC
        exact (Except.ok.injEq .. ▸ hC).symm
      have hypsd : y.PosSemidef := by
        rw [hy']
        refine Matrix.posSemidef_diagonal_iff.2 fun i => ?_
        dsimp only
        split
        · exact hx
        · exact hy
      have hApsd : (J.transpose * y * J).PosSemidef := by
        have := hypsd.conjTranspose_mul_mul_same J
        rwa [conjT_eq_transpose] at this
      have hBsym : ((J.transpose * J)⁻¹).transpose =
          (J.transpose * J)⁻¹ := by
        rw [Matrix.transpose_nonsing_inv, Matrix.transpose_mul,
          Matrix.transpose_transpose]
      have hCpsd : C.PosSemidef := by
        rw [hCval]
        have := hApsd.conjTranspose_mul_mul_same (J.transpose * J)⁻¹
        rwa [conjT_eq_transpose, hBsym] at this
      have hAsym : (J.transpose * y * J).transpose =
          J.transpose * y * J := by
        rw [Matrix.transpose_mul, Matrix.transpose_mul,
          Matrix.transpose_transpose, hy']
        unfold noiseDiagonal
        rw [Matrix.diagonal_transpose, Matrix.mul_assoc]
      have hCsym : C.transpose = C := by
        rw [hCval, Matrix.transpose_mul, Matrix.transpose_mul, hBsym, hAsym]
        simp only [Matrix.mul_assoc]
      exact ⟨hCval, hCsym, hCpsd, hCpsd.1, hCpsd.eigenvalues_nonneg⟩
    · simp only [calculate_covariance, ← hJ, ← hy', if_pos hdet]
      exact iff_of_false (by simp [Except.isOk, Except.toBool])
        (not_not_intro hdet)
  · constructor
    · intro C hC
      simp only [calculate_covariance, ← hJ, ← hy', if_neg hdet] at hC
      exact Except.noConfusion hC
    · simp only [calculate_covariance, ← hJ, ← hy', if_neg hdet]
      exact iff_of_true (by simp [Except.isOk, Except.toBool]) hdet

/-- Witness for C8 at unit pixel variances and a one-marker layout. -/
theorem calculate_covariance_spec_witness :
    ((0 : ℝ) ≤ 1 ∧ (0 : ℝ) ≤ 1) ∧
    ((∀ C, calculate_covariance Mat3.id [Fix.loc1] ⟨Mat3.id, ⟨0, 0, 5⟩⟩
        (1, 1) = .ok C →
      (let jacobian := calculate_projection_jacobian Mat3.id [Fix.loc1]
        ⟨Mat3.id, ⟨0, 0, 5⟩⟩
       let y := noiseDiagonal (8 * ([Fix.loc1] : List TagLocation).length) 1 1
       C = (jacobian.transpose * jacobian)⁻¹ *
            (jacobian.transpose * y * jacobian) *
            (jacobian.transpose * jacobian)⁻¹) ∧
      C.transpose = C ∧ C.PosSemidef ∧
      ∃ hh : C.IsHermitian, ∀ i, 0 ≤ hh.eigenvalues i) ∧
    ((calculate_covariance Mat3.id [Fix.loc1] ⟨Mat3.id, ⟨0, 0, 5⟩⟩
        (1, 1)).isOk = false ↔
      ¬ IsUnit ((calculate_projection_jacobian Mat3.id [Fix.loc1]
        ⟨Mat3.id, ⟨0, 0, 5⟩⟩).transpose *
        calculate_projection_jacobian Mat3.id [Fix.loc1]
          ⟨Mat3.id, ⟨0, 0, 5⟩⟩).det)) :=
  ⟨⟨by norm_num, by norm_num⟩,
   calculate_covariance_spec Mat3.id [Fix.loc1] ⟨Mat3.id, ⟨0, 0, 5⟩⟩ 1 1
     (by norm_num) (by norm_num)⟩

end XDim
